import Mathlib

/-!
The per-connection authentication state machine of valve-rcon.

A shallow embedding of `rcon.go` (package `rcon`).  The connection handler
`RCON.acceptConnection` is a loop around `ParsePacket(conn)`; here the results
of the successive `ParsePacket` calls are the input (a list of decode
outcomes), and everything the handler does to the outside world is recorded,
in order, in a trace of actions.  The local variable `authenticated` and the
fact that the loop has been left by `break` are explicit state.

The server value `r` is taken as fixed while one connection is served, as the
specification assumes for the password and the handler.
-/

namespace Rcon

/-! ## Data model -/

/-- Modelled from the spec: the `Packet` type of packet.go, which is not among
the sources.  The spec gives it a 32-bit signed `id`, a 32-bit signed `type`
and a text `body`; rcon.go reads the fields `ID`, `Type` and `Body`.  The field
`Type` is spelled `Type_` because `Type` is reserved.  No arithmetic is done on
the two integers, so they are kept as unbounded integers. -/
structure Packet where
  ID : Int
  Type_ : Int
  Body : String
deriving DecidableEq

/-- Modelled from the spec: constant `ServerDataAuth` of packet.go,
`SERVERDATA_AUTH = 3`. -/
def ServerDataAuth : Int := 3

/-- Modelled from the spec: constant `ServerDataAuthResponse` of packet.go,
`SERVERDATA_AUTH_RESPONSE = 2`. -/
def ServerDataAuthResponse : Int := 2

/-- Modelled from the spec: constant `ServerDataExecCommand` of packet.go,
`SERVERDATA_EXECCOMMAND = 2`. -/
def ServerDataExecCommand : Int := 2

/-- Little-endian bytes of a 32-bit two's-complement integer. -/
def int32LE (x : Int) : List Nat :=
  let u := (x % 2 ^ 32).toNat
  [u % 256, u / 256 % 256, u / 65536 % 256, u / 16777216 % 256]

/-- Bytes of a Go string: the UTF-8 encoding of the text. -/
def stringBytes (s : String) : List Nat :=
  (s.data.flatMap String.utf8EncodeChar).map UInt8.toNat

/-- Modelled from the spec: `EncodePacket` of packet.go, which is not among the
sources.  The wire frame is
`int32 length | int32 id | int32 type | body bytes | 0x00 | 0x00`, little
endian, where `length = 4 + 4 + len(body) + 2`.  The second component is the
error result, which the spec says is never set for in-memory packets. -/
def EncodePacket (p : Packet) : List Nat × Option String :=
  let body := stringBytes p.Body
  (int32LE (4 + 4 + (body.length : Int) + 2) ++ int32LE p.ID ++ int32LE p.Type_
      ++ body ++ [0, 0], none)

/-- A `net.Conn`: the handler only passes it on, so it is reduced to an
identity and the remote address it reports. -/
structure Conn where
  fd : Nat
  remoteAddr : String
deriving DecidableEq

/-- Modelled from the spec: the `Client` handle of client.go, which is not
among the sources.  The spec describes it as a per-command value exposing the
originating connection and the triggering packet's id. -/
structure Client where
  conn : Conn
  ID : Int
deriving DecidableEq

/-- Modelled from the spec: `NewClient(conn, p)` of client.go builds the handle
from the connection and the packet that triggered the command. -/
def NewClient (conn : Conn) (p : Packet) : Client :=
  { conn := conn, ID := p.ID }

/-- The `RCON` struct.  The command handler is a Go callback without result:
it is a state transformer on the embedding application's state `W`, and `none`
is the nil handler.  The `listener` field plays no part in connection
handling and is left out. -/
structure RCON (W : Type) where
  host : String
  port : Int
  password : String
  commandHandler : Option (String → Client → W → W)
  banList : List String

/-- `NewRCON(host, port, password)`: no handler, no ban list. -/
def NewRCON {W : Type} (host : String) (port : Int) (password : String) : RCON W :=
  { host := host, port := port, password := password, commandHandler := none, banList := [] }

/-- `r.OnCommand(handle)`: registers (or, with `none`, clears) the handler. -/
def RCON.OnCommand {W : Type} (r : RCON W) (handle : Option (String → Client → W → W)) :
    RCON W :=
  { r with commandHandler := handle }

/-! ## Connection handling -/

/-- What one call `ParsePacket(conn)` yields, as `acceptConnection` tells the
cases apart: an error for which `errors.Is(err, io.EOF)` holds, any other
non-nil error, or a packet with a nil error. -/
inductive DecodeOutcome where
  | eof
  | error
  | packet (p : Packet)
deriving DecidableEq

/-- The externally visible actions of `acceptConnection`, one constructor per
call it makes: `ParsePacket(conn)` (with what it returned), `conn.Close()`,
`conn.Write(bytes)` and `r.commandHandler(command, client)`. -/
inductive Action where
  | parsed (o : DecodeOutcome)
  | closed
  | wrote (bytes : List Nat)
  | handled (command : String) (client : Client)
deriving DecidableEq

/-- State of one run of `acceptConnection`: the local `authenticated`, whether
the `for` loop has been left, the actions so far (oldest first) and the state
of the embedding application. -/
structure ConnState (W : Type) where
  authenticated : Bool
  exited : Bool
  trace : List Action
  world : W

/-- The action `conn.Close()` followed by `break`. -/
def ConnState.closeAndBreak {W : Type} (s : ConnState W) : ConnState W :=
  { s with trace := s.trace ++ [Action.closed], exited := true }

/-- One pass through the body of the `for` loop of `acceptConnection`, given
what `ParsePacket(conn)` returns in it. -/
def RCON.iteration {W : Type} (r : RCON W) (conn : Conn) (s0 : ConnState W)
    (o : DecodeOutcome) : ConnState W :=
  let s := { s0 with trace := s0.trace ++ [Action.parsed o] }
  match o with
  | .eof => s.closeAndBreak
  | .error => s
  | .packet p =>
    -- handle commands
    if s.authenticated && p.Type_ == ServerDataExecCommand then
      match r.commandHandler with
      | some h =>
        { s with trace := s.trace ++ [Action.handled p.Body (NewClient conn p)],
                 world := h p.Body (NewClient conn p) s.world }
      | none => s
    -- not authenticated and not a ServerDataAuth packet
    else if p.Type_ != ServerDataAuth then
      s.closeAndBreak
    -- empty password, we should refuse the connection
    else if p.Type_ == ServerDataAuth && r.password == "" then
      s.closeAndBreak
    -- authentication
    else if p.Type_ == ServerDataAuth then
      let correct := p.Body == r.password
      let id : Int := if correct then p.ID else -1
      let responsePacket : Packet := { ID := id, Type_ := ServerDataAuthResponse, Body := "" }
      let responseBytes := (EncodePacket responsePacket).1
      let s1 := { s with trace := s.trace ++ [Action.wrote responseBytes] }
      if correct then
        { s1 with authenticated := true }
      else
        s1.closeAndBreak
    else s

/-- The `for` loop of `acceptConnection`, fed the results of the successive
`ParsePacket` calls.  Once the loop has been left nothing more is read; when
the outcomes run out the handler is blocked in `ParsePacket`. -/
def RCON.loop {W : Type} (r : RCON W) (conn : Conn) :
    ConnState W → List DecodeOutcome → ConnState W
  | s, [] => s
  | s, o :: os => if s.exited then s else RCON.loop r conn (r.iteration conn s o) os

/-- `r.acceptConnection(conn)`: starts with `authenticated := false` and runs
the loop. -/
def RCON.acceptConnection {W : Type} (r : RCON W) (conn : Conn) (os : List DecodeOutcome)
    (w : W) : ConnState W :=
  r.loop conn { authenticated := false, exited := false, trace := [], world := w } os

/-- The handler invocations of a trace, in order: command text and client. -/
def handlerCalls : List Action → List (String × Client)
  | [] => []
  | Action.handled c cl :: t => (c, cl) :: handlerCalls t
  | _ :: t => handlerCalls t

/-- The byte strings written to the connection in a trace, in order. -/
def writes : List Action → List (List Nat)
  | [] => []
  | Action.wrote b :: t => b :: writes t
  | _ :: t => writes t

/-- Number of `conn.Close()` calls in a trace. -/
def closes (t : List Action) : Nat := t.count Action.closed

/-- The EXECCOMMAND packets that arrive while the connection is authenticated
and open, in order of arrival: outcome number `k` counts when it is a packet of
type EXECCOMMAND and the run over the outcomes before it has set the flag and
has not left the loop. -/
def execArrivals {W : Type} (r : RCON W) (conn : Conn) (os : List DecodeOutcome) (w : W) :
    List Packet :=
  (List.range os.length).filterMap fun k =>
    match os[k]? with
    | some (DecodeOutcome.packet p) =>
      if (r.acceptConnection conn (os.take k) w).authenticated
          && !(r.acceptConnection conn (os.take k) w).exited
          && p.Type_ == ServerDataExecCommand then some p else none
    | _ => none

/-! ### The state machine of the specification

The specification describes a connection as a machine with three states and a
transition table.  It is written down here from the table alone, without
reference to `RCON.iteration`, to be compared with the code. -/

/-- The states of the connection state machine in the specification:
`UNAUTHENTICATED` (initial), `AUTHENTICATED` and `CLOSED` (terminal). -/
inductive SpecState where
  | unauthenticated
  | authenticated
  | closed
deriving DecidableEq

/-- The rows of the specification's table for a packet that is not dispatched as
a command: a type other than AUTH closes, AUTH with an empty configured
password closes, AUTH with the right body authenticates, AUTH with a wrong body
closes. -/
def specAuthRow (password : String) (p : Packet) : SpecState :=
  if p.Type_ ≠ ServerDataAuth then SpecState.closed
  else if password = "" then SpecState.closed
  else if p.Body = password then SpecState.authenticated
  else SpecState.closed

/-- The next state in the specification's transition table.  `CLOSED` is
terminal; end of stream closes from any state; a decode error leaves the state
unchanged; `AUTHENTICATED` with an EXECCOMMAND packet stays `AUTHENTICATED`.
The table lists the remaining rows for `UNAUTHENTICATED` only; they are taken
for `AUTHENTICATED` with a packet other than EXECCOMMAND as well. -/
def specNext (password : String) (s : SpecState) (o : DecodeOutcome) : SpecState :=
  match s, o with
  | SpecState.closed, _ => SpecState.closed
  | _, DecodeOutcome.eof => SpecState.closed
  | s, DecodeOutcome.error => s
  | SpecState.authenticated, DecodeOutcome.packet p =>
    if p.Type_ = ServerDataExecCommand then SpecState.authenticated
    else specAuthRow password p
  | SpecState.unauthenticated, DecodeOutcome.packet p => specAuthRow password p

/-- The state the specification's machine is in after a sequence of decode
outcomes, starting from `UNAUTHENTICATED`. -/
def specStateAfter (password : String) (os : List DecodeOutcome) : SpecState :=
  os.foldl (specNext password) SpecState.unauthenticated

/-- The EXECCOMMAND packets that, by the specification's machine, arrive in
state `AUTHENTICATED`, in order of arrival.  It depends on the configured
password and the decode outcomes only. -/
def specExecArrivals (password : String) (os : List DecodeOutcome) : List Packet :=
  (List.range os.length).filterMap fun k =>
    match os[k]? with
    | some (DecodeOutcome.packet p) =>
      if specStateAfter password (os.take k) = SpecState.authenticated
          ∧ p.Type_ = ServerDataExecCommand then some p else none
    | _ => none

/-- The state of the specification's machine that a state of the handler
stands for. -/
def ConnState.specState {W : Type} (s : ConnState W) : SpecState :=
  if s.exited then SpecState.closed
  else if s.authenticated then SpecState.authenticated
  else SpecState.unauthenticated

/-! ### Two connections served at the same time

`ListenAndServe` starts one goroutine per accepted connection.  The goroutines
share the server value and, through the handler, the state of the embedding
application; each has its own `authenticated`, its own connection and its own
position in the loop.  Two of them are run here under an arbitrary schedule
that says, step by step, which connection's `ParsePacket` returns next and
what it returns; one step is one pass through that connection's loop body. -/

/-- What belongs to one connection's goroutine alone: its `authenticated`,
whether it has left the loop, and its actions so far. -/
structure ConnView where
  authenticated : Bool
  exited : Bool
  trace : List Action
deriving DecidableEq

/-- The part of a handler state that belongs to the connection alone. -/
def ConnState.view {W : Type} (s : ConnState W) : ConnView :=
  { authenticated := s.authenticated, exited := s.exited, trace := s.trace }

/-- A connection's own state together with the shared application state. -/
def ConnView.withWorld {W : Type} (v : ConnView) (w : W) : ConnState W :=
  { authenticated := v.authenticated, exited := v.exited, trace := v.trace, world := w }

/-- Two connections being served: each one's own state and the application
state they share. -/
structure TwoConns (W : Type) where
  first : ConnView
  second : ConnView
  world : W

/-- One scheduling step: the first (`true`) or the second (`false`) connection
gets the next result of its `ParsePacket` and runs its loop on it, on the
shared application state as it is now. -/
def RCON.serveStep {W : Type} (r : RCON W) (connA connB : Conn) (s : TwoConns W)
    (e : Bool × DecodeOutcome) : TwoConns W :=
  if e.1 then
    { s with first := (r.loop connA (s.first.withWorld s.world) [e.2]).view,
             world := (r.loop connA (s.first.withWorld s.world) [e.2]).world }
  else
    { s with second := (r.loop connB (s.second.withWorld s.world) [e.2]).view,
             world := (r.loop connB (s.second.withWorld s.world) [e.2]).world }

/-- Two runs of `acceptConnection`, on `connA` and `connB`, started together on
the application state `w` and interleaved as the schedule says. -/
def RCON.serveBoth {W : Type} (r : RCON W) (connA connB : Conn)
    (schedule : List (Bool × DecodeOutcome)) (w : W) : TwoConns W :=
  schedule.foldl (r.serveStep connA connB)
    { first := { authenticated := false, exited := false, trace := [] }
      second := { authenticated := false, exited := false, trace := [] }
      world := w }

/-- The decode outcomes a schedule gives to the first (`true`) or to the second
(`false`) connection, in order. -/
def outcomesOf (which : Bool) (schedule : List (Bool × DecodeOutcome)) : List DecodeOutcome :=
  schedule.filterMap fun e => if e.1 = which then some e.2 else none

/-- Whether an iteration started in state `s` with outcome `o` is a failed
authentication attempt: the loop is running, the outcome is a packet that is
not taken as a command, its type is AUTH, the configured password is not empty
and the body differs from it. -/
def RCON.isFailedAuth {W : Type} (r : RCON W) (s : ConnState W) : DecodeOutcome → Bool
  | DecodeOutcome.packet p =>
    !s.exited && !(s.authenticated && p.Type_ == ServerDataExecCommand)
      && p.Type_ == ServerDataAuth && r.password != "" && p.Body != r.password
  | _ => false

/-- The indices of the failed authentication attempts of a run: outcome number
`k` counts when the iteration that reads it, started in the state reached over
the outcomes before it, is a failed authentication attempt. -/
def failedAuthAttempts {W : Type} (r : RCON W) (conn : Conn) (os : List DecodeOutcome)
    (w : W) : List Nat :=
  (List.range os.length).filter fun k =>
    match os[k]? with
    | some o => r.isFailedAuth (r.acceptConnection conn (os.take k) w) o
    | none => false

/-! ## The ban list and the accept loop -/

/-- `r.SetBanList(banList)`. -/
def RCON.SetBanList {W : Type} (r : RCON W) (banList : List String) : RCON W :=
  { r with banList := banList }

/-- The `for _, a := range r.banList` loop of `addressInBanList`: returns true at
the first entry equal to `addr`, false when the entries run out. -/
def banListScan (addr : String) : List String → Bool
  | [] => false
  | a :: rest => if a == addr then true else banListScan addr rest

/-- `r.addressInBanList(addr)`. -/
def RCON.addressInBanList {W : Type} (r : RCON W) (addr : String) : Bool :=
  banListScan addr r.banList

/-- The pieces of a text cut at every occurrence of `sep`: the first piece and
the list of the others. -/
def splitPieces (sep : Char) : List Char → List Char × List (List Char)
  | [] => ([], [])
  | c :: cs =>
    if c = sep then ([], (splitPieces sep cs).1 :: (splitPieces sep cs).2)
    else (c :: (splitPieces sep cs).1, (splitPieces sep cs).2)

/-- Go's `strings.Split(s, sep)` for a separator of one ASCII character: the
substrings between the occurrences of the separator, of which there is always
at least one.  An ASCII byte occurs in UTF-8 text only as that character, so
cutting the characters and cutting the bytes agree. -/
def stringsSplit (s : String) (sep : Char) : List String :=
  String.mk (splitPieces sep s.data).1 :: (splitPieces sep s.data).2.map String.mk

/-- `addressWithoutPort(addr)`: `strings.Split(addr, ":")` and then `parts[0]`,
which exists because the split is never empty. -/
def addressWithoutPort (addr : String) : String :=
  (stringsSplit addr ':').head (List.cons_ne_nil _ _)

/-- What one call `r.listener.Accept()` yields: a non-nil error or a
connection. -/
inductive AcceptOutcome where
  | error
  | conn (c : Conn)
deriving DecidableEq

/-- The externally visible actions of `ListenAndServe`, one constructor per call
it makes: `net.Listen("tcp", address)`, `r.listener.Accept()` (with what it
returned), `conn.Close()`, `go r.acceptConnection(conn)` and the deferred
`r.listener.Close()`.  It reads from and writes to no connection itself. -/
inductive ServerAction where
  | listen (address : String)
  | accept (o : AcceptOutcome)
  | closeConn (c : Conn)
  | serve (c : Conn)
  | closeListener
deriving DecidableEq

/-- State of one run of `ListenAndServe`: `result` is `none` while the call has
not returned, `some none` once it has returned nil and `some (some e)` once it
has returned the error `e`; `trace` holds the actions so far, oldest first. -/
structure ServeState where
  result : Option (Option String)
  trace : List ServerAction
deriving DecidableEq

/-- One pass through the body of the `for` loop of `ListenAndServe`, given what
`Accept()` returns in it.  On an error the loop is left, the deferred
`r.listener.Close()` runs and nil is returned. -/
def RCON.acceptIteration {W : Type} (r : RCON W) (s0 : ServeState) (o : AcceptOutcome) :
    ServeState :=
  let s := { s0 with trace := s0.trace ++ [ServerAction.accept o] }
  match o with
  | .error => { s with trace := s.trace ++ [ServerAction.closeListener], result := some none }
  | .conn c =>
    let ip := addressWithoutPort c.remoteAddr
    if r.addressInBanList ip then
      { s with trace := s.trace ++ [ServerAction.closeConn c] }
    else
      { s with trace := s.trace ++ [ServerAction.serve c] }

/-- The `for` loop of `ListenAndServe`, fed the results of the successive
`Accept` calls.  When they run out the call is blocked in `Accept`. -/
def RCON.acceptLoop {W : Type} (r : RCON W) : ServeState → List AcceptOutcome → ServeState
  | s, [] => s
  | s, o :: os =>
    if s.result.isSome then s else RCON.acceptLoop r (r.acceptIteration s o) os

/-- `r.ListenAndServe()`: `listenErr` is the error returned by `net.Listen`
(`none` for nil) on the address `host:port`; the `listener` itself is not
modelled. -/
def RCON.ListenAndServe {W : Type} (r : RCON W) (listenErr : Option String)
    (accepts : List AcceptOutcome) : ServeState :=
  let address := r.host ++ ":" ++ toString r.port
  match listenErr with
  | some err => { result := some (some err), trace := [ServerAction.listen address] }
  | none => r.acceptLoop { result := none, trace := [ServerAction.listen address] } accepts

/-! ## Example inputs -/

/-- A connection used in the examples. -/
def exampleConn : Conn := { fd := 7, remoteAddr := "192.0.2.1:40000" }

/-- A handler that logs the command texts it receives. -/
def logCommand : String → Client → List String → List String :=
  fun command _ log => log ++ [command]

/-- A server with password `secret` whose handler logs the commands. -/
def exampleServer : RCON (List String) :=
  (NewRCON "0.0.0.0" 27015 "secret").OnCommand (some logCommand)

/-- A server with password `secret` and no handler registered. -/
def silentServer : RCON (List String) := NewRCON "0.0.0.0" 27015 "secret"

/-- A server whose password was left empty. -/
def openServer : RCON (List String) :=
  (NewRCON "0.0.0.0" 27015 "").OnCommand (some logCommand)

/-- A server that bans the host `10.0.0.5`. -/
def banningServer : RCON (List String) :=
  exampleServer.SetBanList ["10.0.0.5"]

/-- A connection from the banned host. -/
def bannedConn : Conn := { fd := 8, remoteAddr := "10.0.0.5:51000" }

/-- A second connection, for the runs with two connections. -/
def otherConn : Conn := { fd := 9, remoteAddr := "198.51.100.7:40001" }

/-- A schedule for two connections: the first sends the right password, a
command and then hits a decode error; the second, in between, sends a wrong
password and then the right one. -/
def exampleSchedule : List (Bool × DecodeOutcome) :=
  [(true, DecodeOutcome.packet { ID := 1, Type_ := 3, Body := "secret" }),
   (false, DecodeOutcome.packet { ID := 7, Type_ := 3, Body := "guess" }),
   (true, DecodeOutcome.packet { ID := 2, Type_ := 2, Body := "status" }),
   (false, DecodeOutcome.packet { ID := 8, Type_ := 3, Body := "secret" }),
   (true, DecodeOutcome.error)]

/-! ## Basic facts about the loop -/

section Basic

variable {W : Type}

theorem loop_nil (r : RCON W) (conn : Conn) (s : ConnState W) : r.loop conn s [] = s := rfl

theorem loop_cons (r : RCON W) (conn : Conn) (s : ConnState W) (o : DecodeOutcome)
    (os : List DecodeOutcome) :
    r.loop conn s (o :: os) = if s.exited then s else r.loop conn (r.iteration conn s o) os := rfl

theorem loop_of_exited (r : RCON W) (conn : Conn) (s : ConnState W) (os : List DecodeOutcome)
    (h : s.exited = true) : r.loop conn s os = s := by
  cases os with
  | nil => rfl
  | cons o os => simp [loop_cons, h]

theorem loop_cons_running (r : RCON W) (conn : Conn) (s : ConnState W) (o : DecodeOutcome)
    (os : List DecodeOutcome) (h : s.exited = false) :
    r.loop conn s (o :: os) = r.loop conn (r.iteration conn s o) os := by
  simp [loop_cons, h]

theorem loop_append (r : RCON W) (conn : Conn) (s : ConnState W) (a b : List DecodeOutcome) :
    r.loop conn s (a ++ b) = r.loop conn (r.loop conn s a) b := by
  induction a generalizing s with
  | nil => rfl
  | cons o a ih =>
    by_cases h : s.exited = true
    · simp [loop_cons, h, loop_of_exited]
    · simp [loop_cons, h, ih]

theorem acceptConnection_append (r : RCON W) (conn : Conn) (a b : List DecodeOutcome) (w : W) :
    r.acceptConnection conn (a ++ b) w = r.loop conn (r.acceptConnection conn a w) b := by
  unfold RCON.acceptConnection
  exact loop_append r conn _ a b

/-- Continuing a run that has not left the loop by one more decode outcome. -/
theorem acceptConnection_step (r : RCON W) (conn : Conn) (a : List DecodeOutcome)
    (o : DecodeOutcome) (rest : List DecodeOutcome) (w : W)
    (h : (r.acceptConnection conn a w).exited = false) :
    r.acceptConnection conn (a ++ o :: rest) w
      = r.loop conn (r.iteration conn (r.acceptConnection conn a w) o) rest := by
  rw [acceptConnection_append, loop_cons_running _ _ _ _ _ h]

theorem iteration_eof (r : RCON W) (conn : Conn) (s : ConnState W) :
    r.iteration conn s .eof
      = { s with trace := s.trace ++ [Action.parsed .eof, Action.closed], exited := true } := by
  simp [RCON.iteration, ConnState.closeAndBreak]

theorem iteration_error (r : RCON W) (conn : Conn) (s : ConnState W) :
    r.iteration conn s .error = { s with trace := s.trace ++ [Action.parsed .error] } := by
  simp [RCON.iteration]

theorem iteration_exec_some (r : RCON W) (conn : Conn) (s : ConnState W) (p : Packet)
    (h : String → Client → W → W) (hh : r.commandHandler = some h)
    (ha : s.authenticated = true) (ht : p.Type_ = ServerDataExecCommand) :
    r.iteration conn s (.packet p)
      = { s with trace := s.trace ++ [Action.parsed (.packet p),
                                      Action.handled p.Body (NewClient conn p)],
                 world := h p.Body (NewClient conn p) s.world } := by
  simp [RCON.iteration, ha, ht, hh]

theorem iteration_exec_none (r : RCON W) (conn : Conn) (s : ConnState W) (p : Packet)
    (hh : r.commandHandler = none)
    (ha : s.authenticated = true) (ht : p.Type_ = ServerDataExecCommand) :
    r.iteration conn s (.packet p)
      = { s with trace := s.trace ++ [Action.parsed (.packet p)] } := by
  simp [RCON.iteration, ha, ht, hh]

theorem iteration_not_auth (r : RCON W) (conn : Conn) (s : ConnState W) (p : Packet)
    (hx : s.authenticated = false ∨ p.Type_ ≠ ServerDataExecCommand)
    (ht : p.Type_ ≠ ServerDataAuth) :
    r.iteration conn s (.packet p)
      = { s with trace := s.trace ++ [Action.parsed (.packet p), Action.closed],
                 exited := true } := by
  have hc : (s.authenticated && p.Type_ == ServerDataExecCommand) = false := by
    rcases hx with hx | hx <;> simp [hx]
  simp only [RCON.iteration, hc, Bool.false_eq_true, if_false]
  simp [ConnState.closeAndBreak, ht]

theorem iteration_auth_empty (r : RCON W) (conn : Conn) (s : ConnState W) (p : Packet)
    (hx : s.authenticated = false ∨ p.Type_ ≠ ServerDataExecCommand)
    (ht : p.Type_ = ServerDataAuth) (hp : r.password = "") :
    r.iteration conn s (.packet p)
      = { s with trace := s.trace ++ [Action.parsed (.packet p), Action.closed],
                 exited := true } := by
  have hc : (s.authenticated && p.Type_ == ServerDataExecCommand) = false := by
    rcases hx with hx | hx <;> simp [hx]
  simp only [RCON.iteration, hc, Bool.false_eq_true, if_false]
  simp [ConnState.closeAndBreak, ht, hp]

theorem iteration_auth_ok (r : RCON W) (conn : Conn) (s : ConnState W) (p : Packet)
    (hx : s.authenticated = false ∨ p.Type_ ≠ ServerDataExecCommand)
    (ht : p.Type_ = ServerDataAuth) (hp : r.password ≠ "") (hb : p.Body = r.password) :
    r.iteration conn s (.packet p)
      = { s with trace := s.trace ++ [Action.parsed (.packet p),
            Action.wrote (EncodePacket
              { ID := p.ID, Type_ := ServerDataAuthResponse, Body := "" }).1],
                 authenticated := true } := by
  have hc : (s.authenticated && p.Type_ == ServerDataExecCommand) = false := by
    rcases hx with hx | hx <;> simp [hx]
  simp only [RCON.iteration, hc, Bool.false_eq_true, if_false]
  simp [ht, hp, hb]

theorem iteration_auth_wrong (r : RCON W) (conn : Conn) (s : ConnState W) (p : Packet)
    (hx : s.authenticated = false ∨ p.Type_ ≠ ServerDataExecCommand)
    (ht : p.Type_ = ServerDataAuth) (hp : r.password ≠ "") (hb : p.Body ≠ r.password) :
    r.iteration conn s (.packet p)
      = { s with trace := s.trace ++ [Action.parsed (.packet p),
            Action.wrote (EncodePacket
              { ID := -1, Type_ := ServerDataAuthResponse, Body := "" }).1,
            Action.closed],
                 exited := true } := by
  have hc : (s.authenticated && p.Type_ == ServerDataExecCommand) = false := by
    rcases hx with hx | hx <;> simp [hx]
  simp only [RCON.iteration, hc, Bool.false_eq_true, if_false]
  simp [ConnState.closeAndBreak, ht, hp, hb]

/-- The flag after one iteration: it was set before, or the iteration processed
an AUTH packet carrying the non-empty configured password. -/
theorem iteration_authenticated (r : RCON W) (conn : Conn) (s : ConnState W)
    (o : DecodeOutcome) (h : (r.iteration conn s o).authenticated = true) :
    s.authenticated = true ∨
      ∃ p, o = DecodeOutcome.packet p ∧ p.Type_ = ServerDataAuth ∧ p.Body = r.password ∧
        r.password ≠ "" := by
  cases o with
  | eof => left; simpa [iteration_eof] using h
  | error => left; simpa [iteration_error] using h
  | packet p =>
    by_cases ha : s.authenticated = true
    · exact Or.inl ha
    · right
      have ha' : s.authenticated = false := by simpa using ha
      have hx : s.authenticated = false ∨ p.Type_ ≠ ServerDataExecCommand := Or.inl ha'
      by_cases ht : p.Type_ = ServerDataAuth
      · by_cases hp : r.password = ""
        · rw [iteration_auth_empty r conn s p hx ht hp] at h
          simp [ha'] at h
        · by_cases hb : p.Body = r.password
          · exact ⟨p, rfl, ht, hb, hp⟩
          · rw [iteration_auth_wrong r conn s p hx ht hp hb] at h
            simp [ha'] at h
      · rw [iteration_not_auth r conn s p hx ht] at h
        simp [ha'] at h

/-- The flag is never cleared by an iteration. -/
theorem iteration_keeps_authenticated (r : RCON W) (conn : Conn) (s : ConnState W)
    (o : DecodeOutcome) (h : s.authenticated = true) :
    (r.iteration conn s o).authenticated = true := by
  cases o with
  | eof => simpa [iteration_eof] using h
  | error => simpa [iteration_error] using h
  | packet p =>
    unfold RCON.iteration
    simp only [ConnState.closeAndBreak]
    split_ifs <;> first | exact h | rfl | (split <;> exact h)

theorem loop_keeps_authenticated (r : RCON W) (conn : Conn) (s : ConnState W)
    (os : List DecodeOutcome) (h : s.authenticated = true) :
    (r.loop conn s os).authenticated = true := by
  induction os generalizing s with
  | nil => exact h
  | cons o os ih =>
    rw [loop_cons]
    split
    · exact h
    · exact ih _ (iteration_keeps_authenticated r conn s o h)

/-- With an empty configured password the flag can never be set. -/
theorem loop_unauthenticated_of_empty (r : RCON W) (conn : Conn) (s : ConnState W)
    (os : List DecodeOutcome) (hp : r.password = "") (h : s.authenticated = false) :
    (r.loop conn s os).authenticated = false := by
  induction os generalizing s with
  | nil => exact h
  | cons o os ih =>
    rw [loop_cons]
    split
    · exact h
    · apply ih
      by_contra hc
      have hc' : (r.iteration conn s o).authenticated = true := by simpa using hc
      rcases iteration_authenticated r conn s o hc' with h1 | ⟨_, _, _, _, h2⟩
      · simp [h] at h1
      · exact h2 hp

theorem acceptConnection_concat (r : RCON W) (conn : Conn) (l : List DecodeOutcome)
    (o : DecodeOutcome) (w : W) :
    r.acceptConnection conn (l ++ [o]) w =
      if (r.acceptConnection conn l w).exited then r.acceptConnection conn l w
      else r.iteration conn (r.acceptConnection conn l w) o := by
  rw [acceptConnection_append, loop_cons, loop_nil]

/-- Case analysis on what one iteration does with a decoded packet: the six
paths through the loop body. -/
theorem iteration_packet_cases (P : ConnState W → Prop) (r : RCON W) (conn : Conn)
    (s : ConnState W) (p : Packet)
    (hsome : ∀ h, r.commandHandler = some h → s.authenticated = true →
      p.Type_ = ServerDataExecCommand →
      P { s with trace := s.trace ++ [Action.parsed (.packet p),
                                      Action.handled p.Body (NewClient conn p)],
                 world := h p.Body (NewClient conn p) s.world })
    (hnone : r.commandHandler = none → s.authenticated = true →
      p.Type_ = ServerDataExecCommand →
      P { s with trace := s.trace ++ [Action.parsed (.packet p)] })
    (hother : (s.authenticated = false ∨ p.Type_ ≠ ServerDataExecCommand) →
      p.Type_ ≠ ServerDataAuth →
      P { s with trace := s.trace ++ [Action.parsed (.packet p), Action.closed],
                 exited := true })
    (hempty : (s.authenticated = false ∨ p.Type_ ≠ ServerDataExecCommand) →
      p.Type_ = ServerDataAuth → r.password = "" →
      P { s with trace := s.trace ++ [Action.parsed (.packet p), Action.closed],
                 exited := true })
    (hok : (s.authenticated = false ∨ p.Type_ ≠ ServerDataExecCommand) →
      p.Type_ = ServerDataAuth → r.password ≠ "" → p.Body = r.password →
      P { s with trace := s.trace ++ [Action.parsed (.packet p),
            Action.wrote (EncodePacket
              { ID := p.ID, Type_ := ServerDataAuthResponse, Body := "" }).1],
                 authenticated := true })
    (hwrong : (s.authenticated = false ∨ p.Type_ ≠ ServerDataExecCommand) →
      p.Type_ = ServerDataAuth → r.password ≠ "" → p.Body ≠ r.password →
      P { s with trace := s.trace ++ [Action.parsed (.packet p),
            Action.wrote (EncodePacket
              { ID := -1, Type_ := ServerDataAuthResponse, Body := "" }).1,
            Action.closed],
                 exited := true }) :
    P (r.iteration conn s (.packet p)) := by
  by_cases hx : s.authenticated = true ∧ p.Type_ = ServerDataExecCommand
  · obtain ⟨ha, ht⟩ := hx
    cases hh : r.commandHandler with
    | none => rw [iteration_exec_none r conn s p hh ha ht]; exact hnone hh ha ht
    | some h => rw [iteration_exec_some r conn s p h hh ha ht]; exact hsome h hh ha ht
  · have hx' : s.authenticated = false ∨ p.Type_ ≠ ServerDataExecCommand := by
      by_cases ha : s.authenticated = true
      · exact Or.inr fun ht => hx ⟨ha, ht⟩
      · exact Or.inl (by simpa using ha)
    by_cases ht : p.Type_ = ServerDataAuth
    · by_cases hp : r.password = ""
      · rw [iteration_auth_empty r conn s p hx' ht hp]; exact hempty hx' ht hp
      · by_cases hb : p.Body = r.password
        · rw [iteration_auth_ok r conn s p hx' ht hp hb]; exact hok hx' ht hp hb
        · rw [iteration_auth_wrong r conn s p hx' ht hp hb]; exact hwrong hx' ht hp hb
    · rw [iteration_not_auth r conn s p hx' ht]; exact hother hx' ht

theorem handlerCalls_append (a b : List Action) :
    handlerCalls (a ++ b) = handlerCalls a ++ handlerCalls b := by
  induction a with
  | nil => rfl
  | cons x a ih => cases x <;> simp [handlerCalls, ih]

/-- The handler invocations added by one iteration. -/
theorem iteration_handlerCalls (r : RCON W) (conn : Conn) (s : ConnState W)
    (o : DecodeOutcome) (h : String → Client → W → W) (hh : r.commandHandler = some h) :
    handlerCalls (r.iteration conn s o).trace =
      handlerCalls s.trace ++
        (match o with
         | DecodeOutcome.packet p =>
           if s.authenticated && p.Type_ == ServerDataExecCommand
           then [(p.Body, NewClient conn p)] else []
         | _ => []) := by
  cases o with
  | eof => simp [iteration_eof, handlerCalls_append, handlerCalls]
  | error => simp [iteration_error, handlerCalls_append, handlerCalls]
  | packet p =>
    refine iteration_packet_cases
      (fun st => handlerCalls st.trace = handlerCalls s.trace ++
        (if s.authenticated && p.Type_ == ServerDataExecCommand
         then [(p.Body, NewClient conn p)] else [])) r conn s p ?_ ?_ ?_ ?_ ?_ ?_
    · intro _ _ ha ht
      simp [handlerCalls_append, handlerCalls, ha, ht]
    · intro hn
      rw [hh] at hn
      exact absurd hn (by simp)
    all_goals
      intro hx
      have hc : (s.authenticated && p.Type_ == ServerDataExecCommand) = false := by
        rcases hx with hx | hx <;> simp [hx]
      intros
      simp only [hc]
      simp [handlerCalls_append, handlerCalls]

/-- The arrivals of a run extended by one outcome. -/
theorem execArrivals_concat (r : RCON W) (conn : Conn) (l : List DecodeOutcome)
    (o : DecodeOutcome) (w : W) :
    execArrivals r conn (l ++ [o]) w =
      execArrivals r conn l w ++
        (match o with
         | DecodeOutcome.packet p =>
           if (r.acceptConnection conn l w).authenticated
               && !(r.acceptConnection conn l w).exited
               && p.Type_ == ServerDataExecCommand then [p] else []
         | _ => []) := by
  unfold execArrivals
  rw [List.length_append, List.length_singleton, List.range_succ, List.filterMap_append]
  congr 1
  · apply List.filterMap_congr
    intro k hk
    have hk' : k < l.length := List.mem_range.mp hk
    rw [List.getElem?_append_left hk', List.take_append_of_le_length (Nat.le_of_lt hk')]
  · simp only [List.filterMap_cons, List.filterMap_nil, List.getElem?_concat_length,
      List.take_left]
    cases o with
    | eof => rfl
    | error => rfl
    | packet p =>
      by_cases hc : ((r.acceptConnection conn l w).authenticated
          && !(r.acceptConnection conn l w).exited
          && p.Type_ == ServerDataExecCommand) = true
      · simp only [hc, if_true]
      · simp [hc]

/-- The application state after one iteration. -/
theorem iteration_world (r : RCON W) (conn : Conn) (s : ConnState W)
    (o : DecodeOutcome) (h : String → Client → W → W) (hh : r.commandHandler = some h) :
    (r.iteration conn s o).world =
      (match o with
       | DecodeOutcome.packet p =>
         if s.authenticated && p.Type_ == ServerDataExecCommand
         then h p.Body (NewClient conn p) s.world else s.world
       | _ => s.world) := by
  cases o with
  | eof => simp [iteration_eof]
  | error => simp [iteration_error]
  | packet p =>
    refine iteration_packet_cases
      (fun st => st.world =
        (if s.authenticated && p.Type_ == ServerDataExecCommand
         then h p.Body (NewClient conn p) s.world else s.world)) r conn s p ?_ ?_ ?_ ?_ ?_ ?_
    · intro h1 hh1 ha ht
      rw [hh] at hh1
      cases hh1
      simp [ha, ht]
    · intro hn
      rw [hh] at hn
      exact absurd hn (by simp)
    all_goals
      intro hx
      have hc : (s.authenticated && p.Type_ == ServerDataExecCommand) = false := by
        rcases hx with hx | hx <;> simp [hx]
      intros
      simp only [hc]
      simp

/-- Locating an element of `t ++ d` that does not occur in `d`. -/
theorem split_left_of_not_mem {α : Type} (t d pre post : List α) (a : α)
    (h : t ++ d = pre ++ a :: post) (hd : a ∉ d) : ∃ post', t = pre ++ a :: post' := by
  rcases List.append_eq_append_iff.mp h with ⟨a', _, h2⟩ | ⟨c', h1, h2⟩
  · exact absurd (by rw [h2]; simp) hd
  · cases c' with
    | nil =>
      simp only [List.nil_append] at h2
      exact absurd (by rw [← h2]; simp) hd
    | cons x c'' =>
      simp only [List.cons_append, List.cons.injEq] at h2
      exact ⟨c'', by rw [h1, h2.1]⟩

/-- What one iteration appends to the trace: the parse and then either nothing
that is a handler invocation, or the single invocation for an EXECCOMMAND packet
read with the flag set. -/
theorem iteration_trace_delta (r : RCON W) (conn : Conn) (s : ConnState W)
    (o : DecodeOutcome) :
    ∃ d, (r.iteration conn s o).trace = s.trace ++ Action.parsed o :: d ∧
      ((∀ c cl, Action.handled c cl ∉ d) ∨
        ∃ q, o = DecodeOutcome.packet q ∧ s.authenticated = true ∧
          q.Type_ = ServerDataExecCommand ∧ d = [Action.handled q.Body (NewClient conn q)]) := by
  cases o with
  | eof => exact ⟨[Action.closed], by simp [iteration_eof], Or.inl (by simp)⟩
  | error => exact ⟨[], by simp [iteration_error], Or.inl (by simp)⟩
  | packet p =>
    refine iteration_packet_cases
      (fun st => ∃ d, st.trace = s.trace ++ Action.parsed (DecodeOutcome.packet p) :: d ∧
        ((∀ c cl, Action.handled c cl ∉ d) ∨
          ∃ q, DecodeOutcome.packet p = DecodeOutcome.packet q ∧ s.authenticated = true ∧
            q.Type_ = ServerDataExecCommand ∧
            d = [Action.handled q.Body (NewClient conn q)])) r conn s p ?_ ?_ ?_ ?_ ?_ ?_
    · intro _ _ ha ht
      exact ⟨[Action.handled p.Body (NewClient conn p)], rfl, Or.inr ⟨p, rfl, ha, ht, rfl⟩⟩
    · intro _ _ _
      exact ⟨[], rfl, Or.inl (by simp)⟩
    · intro _ _
      exact ⟨[Action.closed], rfl, Or.inl (by simp)⟩
    · intro _ _ _
      exact ⟨[Action.closed], rfl, Or.inl (by simp)⟩
    · intro _ _ _ _
      exact ⟨_, rfl, Or.inl (by simp)⟩
    · intro _ _ _ _
      exact ⟨_, rfl, Or.inl (by simp)⟩

/-- A set flag is backed by the trace: it holds the parse of an AUTH packet
carrying the non-empty configured password, directly followed by the write of
the response that echoes its id. -/
theorem authenticated_has_auth (r : RCON W) (conn : Conn) (os : List DecodeOutcome) (w : W)
    (h : (r.acceptConnection conn os w).authenticated = true) :
    ∃ p : Packet, p.Type_ = ServerDataAuth ∧ p.Body = r.password ∧ r.password ≠ "" ∧
      [Action.parsed (DecodeOutcome.packet p),
       Action.wrote (EncodePacket { ID := p.ID, Type_ := ServerDataAuthResponse, Body := "" }).1]
        <:+: (r.acceptConnection conn os w).trace := by
  induction os using List.reverseRecOn with
  | nil => exact absurd h (by simp [RCON.acceptConnection, loop_nil])
  | append_singleton l o ih =>
    rw [acceptConnection_concat] at h ⊢
    by_cases hex : (r.acceptConnection conn l w).exited = true
    · rw [if_pos hex] at h ⊢
      exact ih h
    · rw [if_neg hex] at h ⊢
      have grow : ∀ d : List Action, (r.acceptConnection conn l w).authenticated = true →
          ∃ p : Packet, p.Type_ = ServerDataAuth ∧ p.Body = r.password ∧ r.password ≠ "" ∧
            [Action.parsed (DecodeOutcome.packet p),
             Action.wrote (EncodePacket
               { ID := p.ID, Type_ := ServerDataAuthResponse, Body := "" }).1]
              <:+: (r.acceptConnection conn l w).trace ++ d := by
        intro d ha
        obtain ⟨p, h1, h2, h3, h4⟩ := ih ha
        exact ⟨p, h1, h2, h3, h4.trans (List.prefix_append _ _).isInfix⟩
      cases o with
      | eof =>
        rw [iteration_eof] at h ⊢
        exact grow _ h
      | error =>
        rw [iteration_error] at h ⊢
        exact grow _ h
      | packet q =>
        revert h
        refine iteration_packet_cases
          (fun st => st.authenticated = true →
            ∃ p : Packet, p.Type_ = ServerDataAuth ∧ p.Body = r.password ∧ r.password ≠ "" ∧
              [Action.parsed (DecodeOutcome.packet p),
               Action.wrote (EncodePacket
                 { ID := p.ID, Type_ := ServerDataAuthResponse, Body := "" }).1]
                <:+: st.trace) r conn _ q ?_ ?_ ?_ ?_ ?_ ?_
        · intro _ _ _ _ ha
          exact grow _ ha
        · intro _ _ _ ha
          exact grow _ ha
        · intro _ _ ha
          exact grow _ ha
        · intro _ _ _ ha
          exact grow _ ha
        · intro _ ht hp hb _
          exact ⟨q, ht, hb, hp, (List.suffix_append _ _).isInfix⟩
        · intro _ _ _ _ ha
          exact grow _ ha

/-- Locating an element of `t ++ d`: it lies in `t` or in `d`. -/
theorem append_eq_cons_split {α : Type} (t d pre post : List α) (a : α)
    (h : t ++ d = pre ++ a :: post) :
    (∃ post', t = pre ++ a :: post' ∧ post = post' ++ d) ∨
      ∃ d1, pre = t ++ d1 ∧ d = d1 ++ a :: post := by
  rcases List.append_eq_append_iff.mp h with ⟨a', h1, h2⟩ | ⟨c', h1, h2⟩
  · exact Or.inr ⟨a', h1, h2⟩
  · cases c' with
    | nil =>
      simp only [List.nil_append] at h2
      exact Or.inr ⟨[], by simpa using h1.symm, by simpa using h2.symm⟩
    | cons x c'' =>
      simp only [List.cons_append, List.cons.injEq] at h2
      exact Or.inl ⟨c'', by rw [h1, h2.1], h2.2⟩

theorem writes_append (a b : List Action) : writes (a ++ b) = writes a ++ writes b := by
  induction a with
  | nil => rfl
  | cons x a ih => cases x <;> simp [writes, ih]

theorem writes_eq_nil (d : List Action) (h : ∀ b, Action.wrote b ∉ d) : writes d = [] := by
  induction d with
  | nil => rfl
  | cons x d ih =>
    have hd : ∀ b, Action.wrote b ∉ d := fun b hb => h b (List.mem_cons_of_mem _ hb)
    cases x with
    | wrote b => exact absurd (List.mem_cons_self _ _) (h b)
    | parsed o => simpa [writes] using ih hd
    | closed => simpa [writes] using ih hd
    | handled c cl => simpa [writes] using ih hd

/-- What one iteration appends to the trace, as far as writes go: the parse and
then either nothing that is a write, or, for an AUTH packet, the write of one
AUTH_RESPONSE frame with empty body and the packet's id or -1, followed by no
other write. -/
theorem iteration_write_delta (r : RCON W) (conn : Conn) (s : ConnState W)
    (o : DecodeOutcome) :
    ∃ d, (r.iteration conn s o).trace = s.trace ++ Action.parsed o :: d ∧
      ((∀ b, Action.wrote b ∉ d) ∨
        ∃ q id tail, o = DecodeOutcome.packet q ∧ q.Type_ = ServerDataAuth ∧
          (id = q.ID ∨ id = -1) ∧
          d = Action.wrote (EncodePacket
            { ID := id, Type_ := ServerDataAuthResponse, Body := "" }).1 :: tail ∧
          ∀ b, Action.wrote b ∉ tail) := by
  cases o with
  | eof => exact ⟨[Action.closed], by simp [iteration_eof], Or.inl (by simp)⟩
  | error => exact ⟨[], by simp [iteration_error], Or.inl (by simp)⟩
  | packet p =>
    refine iteration_packet_cases
      (fun st => ∃ d, st.trace = s.trace ++ Action.parsed (DecodeOutcome.packet p) :: d ∧
        ((∀ b, Action.wrote b ∉ d) ∨
          ∃ q id tail, DecodeOutcome.packet p = DecodeOutcome.packet q ∧
            q.Type_ = ServerDataAuth ∧ (id = q.ID ∨ id = -1) ∧
            d = Action.wrote (EncodePacket
              { ID := id, Type_ := ServerDataAuthResponse, Body := "" }).1 :: tail ∧
            ∀ b, Action.wrote b ∉ tail)) r conn s p ?_ ?_ ?_ ?_ ?_ ?_
    · intro _ _ _ _
      exact ⟨[Action.handled p.Body (NewClient conn p)], rfl, Or.inl (by simp)⟩
    · intro _ _ _
      exact ⟨[], rfl, Or.inl (by simp)⟩
    · intro _ _
      exact ⟨[Action.closed], rfl, Or.inl (by simp)⟩
    · intro _ _ _
      exact ⟨[Action.closed], rfl, Or.inl (by simp)⟩
    · intro _ ht _ _
      exact ⟨_, rfl, Or.inr ⟨p, p.ID, [], rfl, ht, Or.inl rfl, rfl, by simp⟩⟩
    · intro _ ht _ _
      exact ⟨_, rfl, Or.inr ⟨p, -1, [Action.closed], rfl, ht, Or.inr rfl, rfl, by simp⟩⟩

/-- What one iteration appends to the trace, as far as closing goes: either the
loop state is unchanged and nothing appended is a close, or the loop is left
and the close is the last thing appended and the only close. -/
theorem iteration_close_delta (r : RCON W) (conn : Conn) (s : ConnState W)
    (o : DecodeOutcome) :
    ∃ d, (r.iteration conn s o).trace = s.trace ++ d ∧
      (((r.iteration conn s o).exited = s.exited ∧ Action.closed ∉ d) ∨
        ((r.iteration conn s o).exited = true ∧
          ∃ d0, d = d0 ++ [Action.closed] ∧ Action.closed ∉ d0)) := by
  cases o with
  | eof =>
    rw [iteration_eof]
    exact ⟨_, rfl, Or.inr ⟨rfl, [Action.parsed DecodeOutcome.eof], rfl, by simp⟩⟩
  | error =>
    rw [iteration_error]
    exact ⟨_, rfl, Or.inl ⟨rfl, by simp⟩⟩
  | packet p =>
    refine iteration_packet_cases
      (fun st => ∃ d, st.trace = s.trace ++ d ∧
        ((st.exited = s.exited ∧ Action.closed ∉ d) ∨
          (st.exited = true ∧ ∃ d0, d = d0 ++ [Action.closed] ∧ Action.closed ∉ d0)))
      r conn s p ?_ ?_ ?_ ?_ ?_ ?_
    · intro _ _ _ _
      exact ⟨_, rfl, Or.inl ⟨rfl, by simp⟩⟩
    · intro _ _ _
      exact ⟨_, rfl, Or.inl ⟨rfl, by simp⟩⟩
    · intro _ _
      exact ⟨_, rfl, Or.inr ⟨rfl, [Action.parsed (DecodeOutcome.packet p)], rfl, by simp⟩⟩
    · intro _ _ _
      exact ⟨_, rfl, Or.inr ⟨rfl, [Action.parsed (DecodeOutcome.packet p)], rfl, by simp⟩⟩
    · intro _ _ _ _
      exact ⟨_, rfl, Or.inl ⟨rfl, by simp⟩⟩
    · intro _ _ _ _
      exact ⟨_, rfl, Or.inr ⟨rfl, [Action.parsed (DecodeOutcome.packet p),
        Action.wrote (EncodePacket
          { ID := -1, Type_ := ServerDataAuthResponse, Body := "" }).1], rfl, by simp⟩⟩

/-- Along a run, either the loop is running and the connection has not been
closed, or the loop has been left and the close is the last action and the
only close. -/
theorem run_close_invariant (r : RCON W) (conn : Conn) (os : List DecodeOutcome) (w : W) :
    ((r.acceptConnection conn os w).exited = false ∧
        Action.closed ∉ (r.acceptConnection conn os w).trace) ∨
      ((r.acceptConnection conn os w).exited = true ∧
        ∃ t0, (r.acceptConnection conn os w).trace = t0 ++ [Action.closed] ∧
          Action.closed ∉ t0) := by
  induction os using List.reverseRecOn with
  | nil => exact Or.inl ⟨rfl, by simp [RCON.acceptConnection, loop_nil]⟩
  | append_singleton l o ih =>
    rw [acceptConnection_concat]
    by_cases hex : (r.acceptConnection conn l w).exited = true
    · rw [if_pos hex]
      exact ih
    · rw [if_neg hex]
      have hex' : (r.acceptConnection conn l w).exited = false := by simpa using hex
      rcases ih with ⟨_, hnc⟩ | ⟨he, _⟩
      · obtain ⟨d, hd, hcase⟩ := iteration_close_delta r conn (r.acceptConnection conn l w) o
        rcases hcase with ⟨h1, h2⟩ | ⟨h1, d0, h2, h3⟩
        · left
          refine ⟨by rw [h1, hex'], ?_⟩
          rw [hd]
          simp [hnc, h2]
        · right
          refine ⟨h1, (r.acceptConnection conn l w).trace ++ d0, ?_, ?_⟩
          · rw [hd, h2, List.append_assoc]
          · simp [hnc, h3]
      · exact absurd he hex

/-- A failed authentication attempt starts with the loop running and leaves it. -/
theorem isFailedAuth_exits (r : RCON W) (conn : Conn) (s : ConnState W) (o : DecodeOutcome)
    (h : r.isFailedAuth s o = true) :
    s.exited = false ∧ (r.iteration conn s o).exited = true := by
  cases o with
  | eof => exact absurd h (by simp [RCON.isFailedAuth])
  | error => exact absurd h (by simp [RCON.isFailedAuth])
  | packet p =>
    simp only [RCON.isFailedAuth, Bool.and_eq_true, Bool.not_eq_true', bne_iff_ne, ne_eq,
      beq_iff_eq] at h
    obtain ⟨⟨⟨⟨h1, h2⟩, h3⟩, h4⟩, h5⟩ := h
    have hx : s.authenticated = false ∨ p.Type_ ≠ ServerDataExecCommand := by
      by_cases ha : s.authenticated = true
      · right
        intro ht
        simp [ha, ht] at h2
      · exact Or.inl (by simpa using ha)
    refine ⟨h1, ?_⟩
    rw [iteration_auth_wrong r conn s p hx h3 h4 h5]

/-- The failed attempts of a run extended by one outcome. -/
theorem failedAuthAttempts_concat (r : RCON W) (conn : Conn) (l : List DecodeOutcome)
    (o : DecodeOutcome) (w : W) :
    failedAuthAttempts r conn (l ++ [o]) w =
      failedAuthAttempts r conn l w ++
        (if r.isFailedAuth (r.acceptConnection conn l w) o then [l.length] else []) := by
  unfold failedAuthAttempts
  rw [List.length_append, List.length_singleton, List.range_succ, List.filter_append]
  congr 1
  · apply List.filter_congr
    intro k hk
    have hk' : k < l.length := List.mem_range.mp hk
    rw [List.getElem?_append_left hk', List.take_append_of_le_length (Nat.le_of_lt hk')]
  · simp only [List.filter_cons, List.filter_nil, List.getElem?_concat_length, List.take_left]

/-- A run has at most one failed authentication attempt, and after one the loop
has been left. -/
theorem failedAuthAttempts_bound (r : RCON W) (conn : Conn) (os : List DecodeOutcome) (w : W) :
    (failedAuthAttempts r conn os w).length ≤ 1 ∧
      (failedAuthAttempts r conn os w ≠ [] → (r.acceptConnection conn os w).exited = true) := by
  induction os using List.reverseRecOn with
  | nil => exact ⟨by simp [failedAuthAttempts], fun h => absurd rfl h⟩
  | append_singleton l o ih =>
    rw [failedAuthAttempts_concat, acceptConnection_concat]
    by_cases hf : r.isFailedAuth (r.acceptConnection conn l w) o = true
    · obtain ⟨h1, h2⟩ := isFailedAuth_exits r conn _ o hf
      have hnil : failedAuthAttempts r conn l w = [] := by
        by_contra hne
        rw [ih.2 hne] at h1
        exact absurd h1 (by simp)
      rw [if_pos hf, hnil, h1]
      exact ⟨by simp, fun _ => by simpa using h2⟩
    · rw [if_neg hf, List.append_nil]
      refine ⟨ih.1, fun hne => ?_⟩
      rw [if_pos (ih.2 hne)]
      exact ih.2 hne

/-- What a failed authentication attempt does: it reads an AUTH packet, writes
the response with id -1, closes the connection and leaves the loop. -/
theorem isFailedAuth_iteration (r : RCON W) (conn : Conn) (s : ConnState W)
    (o : DecodeOutcome) (h : r.isFailedAuth s o = true) :
    ∃ q, o = DecodeOutcome.packet q ∧ q.Type_ = ServerDataAuth ∧ q.Body ≠ r.password ∧
      r.iteration conn s o =
        { s with trace := s.trace ++ [Action.parsed (DecodeOutcome.packet q),
              Action.wrote (EncodePacket
                { ID := -1, Type_ := ServerDataAuthResponse, Body := "" }).1,
              Action.closed],
                 exited := true } := by
  cases o with
  | eof => exact absurd h (by simp [RCON.isFailedAuth])
  | error => exact absurd h (by simp [RCON.isFailedAuth])
  | packet p =>
    simp only [RCON.isFailedAuth, Bool.and_eq_true, Bool.not_eq_true', bne_iff_ne, ne_eq,
      beq_iff_eq] at h
    obtain ⟨⟨⟨⟨_, h2⟩, h3⟩, h4⟩, h5⟩ := h
    have hx : s.authenticated = false ∨ p.Type_ ≠ ServerDataExecCommand := by
      by_cases ha : s.authenticated = true
      · right
        intro ht
        simp [ha, ht] at h2
      · exact Or.inl (by simpa using ha)
    exact ⟨p, rfl, h3, h5, iteration_auth_wrong r conn s p hx h3 h4 h5⟩

/-! ### The handler against the specification's state machine -/

/-- One iteration of a running loop moves the handler's state as the
specification's table says. -/
theorem iteration_refines_spec (r : RCON W) (conn : Conn) (s : ConnState W)
    (o : DecodeOutcome) (hex : s.exited = false) :
    (r.iteration conn s o).specState = specNext r.password s.specState o := by
  cases o with
  | eof =>
    rw [iteration_eof]
    cases ha : s.authenticated <;> simp [ConnState.specState, specNext, hex, ha]
  | error =>
    rw [iteration_error]
    cases ha : s.authenticated <;> simp [ConnState.specState, specNext, hex, ha]
  | packet p =>
    refine iteration_packet_cases
      (fun st => st.specState = specNext r.password s.specState (DecodeOutcome.packet p))
      r conn s p ?_ ?_ ?_ ?_ ?_ ?_
    · intro _ _ ha ht
      simp [ConnState.specState, specNext, hex, ha, ht]
    · intro _ ha ht
      simp [ConnState.specState, specNext, hex, ha, ht]
    · intro hx ht
      rcases hx with hx | hx
      · simp [ConnState.specState, specNext, specAuthRow, hex, hx, ht]
      · cases ha : s.authenticated <;>
          simp [ConnState.specState, specNext, specAuthRow, hex, ha, hx, ht]
    · intro hx ht hp
      have hne : ¬ ServerDataAuth = ServerDataExecCommand := by decide
      rcases hx with hx | hx
      · simp [ConnState.specState, specNext, specAuthRow, hex, hx, ht, hp]
      · cases ha : s.authenticated <;>
          simp [ConnState.specState, specNext, specAuthRow, hex, ha, hx, ht, hp, hne]
    · intro hx ht hp hb
      have hne : ¬ ServerDataAuth = ServerDataExecCommand := by decide
      rcases hx with hx | hx
      · simp [ConnState.specState, specNext, specAuthRow, hex, hx, ht, hp, hb]
      · cases ha : s.authenticated <;>
          simp [ConnState.specState, specNext, specAuthRow, hex, ha, hx, ht, hp, hb, hne]
    · intro hx ht hp hb
      have hne : ¬ ServerDataAuth = ServerDataExecCommand := by decide
      rcases hx with hx | hx
      · simp [ConnState.specState, specNext, specAuthRow, hex, hx, ht, hp, hb]
      · cases ha : s.authenticated <;>
          simp [ConnState.specState, specNext, specAuthRow, hex, ha, hx, ht, hp, hb, hne]

theorem specNext_closed (password : String) (o : DecodeOutcome) :
    specNext password SpecState.closed o = SpecState.closed := by
  cases o <;> rfl

/-- After every sequence of decode outcomes the handler is in the state the
specification's machine is in. -/
theorem acceptConnection_refines_spec (r : RCON W) (conn : Conn) (os : List DecodeOutcome)
    (w : W) :
    (r.acceptConnection conn os w).specState = specStateAfter r.password os := by
  induction os using List.reverseRecOn with
  | nil => rfl
  | append_singleton l o ih =>
    have hspec : specStateAfter r.password (l ++ [o]) =
        specNext r.password (specStateAfter r.password l) o := by
      simp [specStateAfter, List.foldl_append]
    rw [acceptConnection_concat, hspec, ← ih]
    by_cases hex : (r.acceptConnection conn l w).exited = true
    · rw [if_pos hex]
      have hc : (r.acceptConnection conn l w).specState = SpecState.closed := by
        simp [ConnState.specState, hex]
      rw [hc, specNext_closed]
    · rw [if_neg hex]
      exact iteration_refines_spec r conn _ o (by simpa using hex)

theorem specState_authenticated_iff (s : ConnState W) :
    s.specState = SpecState.authenticated ↔ s.authenticated = true ∧ s.exited = false := by
  cases ha : s.authenticated <;> cases he : s.exited <;> simp [ConnState.specState, ha, he]

/-- The commands the handler sees as arriving on an authenticated and open
connection are those the specification's machine receives in state
`AUTHENTICATED`. -/
theorem execArrivals_eq_spec (r : RCON W) (conn : Conn) (os : List DecodeOutcome) (w : W) :
    execArrivals r conn os w = specExecArrivals r.password os := by
  unfold execArrivals specExecArrivals
  apply List.filterMap_congr
  intro k _
  cases hget : os[k]? with
  | none => rfl
  | some o =>
    cases o with
    | eof => rfl
    | error => rfl
    | packet p =>
      have hiff := specState_authenticated_iff (r.acceptConnection conn (os.take k) w)
      rw [acceptConnection_refines_spec r conn (os.take k) w] at hiff
      simp only [hiff]
      cases ha : (r.acceptConnection conn (os.take k) w).authenticated <;>
        cases he : (r.acceptConnection conn (os.take k) w).exited <;>
        simp

/-! ### Independence of the shared application state -/

/-- One iteration changes a connection's own state in a way that does not
depend on the application state. -/
theorem iteration_view (r : RCON W) (conn : Conn) (s s' : ConnState W) (o : DecodeOutcome)
    (h : s.view = s'.view) : (r.iteration conn s o).view = (r.iteration conn s' o).view := by
  obtain ⟨a, e, t, w⟩ := s
  obtain ⟨a', e', t', w'⟩ := s'
  simp only [ConnState.view, ConnView.mk.injEq] at h
  obtain ⟨rfl, rfl, rfl⟩ := h
  cases o with
  | eof => simp [iteration_eof, ConnState.view]
  | error => simp [iteration_error, ConnState.view]
  | packet p =>
    refine iteration_packet_cases
      (fun st => st.view = (r.iteration conn
        { authenticated := a, exited := e, trace := t, world := w' }
        (DecodeOutcome.packet p)).view) r conn
      { authenticated := a, exited := e, trace := t, world := w } p ?_ ?_ ?_ ?_ ?_ ?_
    · intro h hh ha ht
      rw [iteration_exec_some r conn
        { authenticated := a, exited := e, trace := t, world := w' } p h hh ha ht]
      rfl
    · intro hh ha ht
      rw [iteration_exec_none r conn
        { authenticated := a, exited := e, trace := t, world := w' } p hh ha ht]
      rfl
    · intro hx ht
      rw [iteration_not_auth r conn
        { authenticated := a, exited := e, trace := t, world := w' } p hx ht]
      rfl
    · intro hx ht hp
      rw [iteration_auth_empty r conn
        { authenticated := a, exited := e, trace := t, world := w' } p hx ht hp]
      rfl
    · intro hx ht hp hb
      rw [iteration_auth_ok r conn
        { authenticated := a, exited := e, trace := t, world := w' } p hx ht hp hb]
      rfl
    · intro hx ht hp hb
      rw [iteration_auth_wrong r conn
        { authenticated := a, exited := e, trace := t, world := w' } p hx ht hp hb]
      rfl

/-- A run changes a connection's own state in a way that does not depend on the
application state. -/
theorem loop_view (r : RCON W) (conn : Conn) (s s' : ConnState W) (os : List DecodeOutcome)
    (h : s.view = s'.view) : (r.loop conn s os).view = (r.loop conn s' os).view := by
  induction os generalizing s s' with
  | nil => exact h
  | cons o os ih =>
    have he : s.exited = s'.exited := congrArg ConnView.exited h
    rw [loop_cons, loop_cons, ← he]
    by_cases hex : s.exited = true
    · rw [if_pos hex, if_pos hex]
      exact h
    · rw [if_neg hex, if_neg hex]
      exact ih _ _ (iteration_view r conn s s' o h)

theorem view_withWorld (v : ConnView) (w : W) : (v.withWorld w).view = v := rfl

end Basic

/-! ## Basic facts about the ban list and the accept loop -/

section ListenerBasic

variable {W : Type}

theorem banListScan_iff (addr : String) (l : List String) :
    banListScan addr l = true ↔ addr ∈ l := by
  induction l with
  | nil => simp [banListScan]
  | cons a rest ih =>
    by_cases h : a = addr
    · simp [banListScan, h]
    · have h' : ¬ addr = a := fun e => h e.symm
      simp [banListScan, h, h', ih]

theorem addressInBanList_iff (r : RCON W) (addr : String) :
    r.addressInBanList addr = true ↔ addr ∈ r.banList :=
  banListScan_iff addr r.banList

theorem splitPieces_fst (sep : Char) (l : List Char) :
    (splitPieces sep l).1 = l.takeWhile (fun c => c != sep) := by
  induction l with
  | nil => rfl
  | cons c cs ih =>
    by_cases h : c = sep
    · simp [splitPieces, h]
    · simp [splitPieces, h, ih]

theorem addressWithoutPort_eq (addr : String) :
    addressWithoutPort addr = String.mk (addr.data.takeWhile (fun c => c != ':')) := by
  unfold addressWithoutPort stringsSplit
  rw [List.head_cons, splitPieces_fst]

theorem takeWhile_ne_append_sep (sep : Char) (h p : List Char) (hh : sep ∉ h) :
    (h ++ sep :: p).takeWhile (fun c => c != sep) = h := by
  induction h with
  | nil => simp
  | cons c cs ih =>
    have hc : c ≠ sep := fun e => hh (by simp [e])
    have hcs : sep ∉ cs := fun e => hh (by simp [e])
    simp [hc, ih hcs]

theorem not_mem_takeWhile_ne (sep : Char) (l : List Char) :
    sep ∉ l.takeWhile (fun c => c != sep) := by
  intro hmem
  have := List.mem_takeWhile_imp hmem
  simp at this

theorem takeWhile_ne_append_of_mem (sep : Char) (h t : List Char) (hh : sep ∈ h) :
    (h ++ t).takeWhile (fun c => c != sep) = h.takeWhile (fun c => c != sep) := by
  induction h with
  | nil => exact absurd hh (by simp)
  | cons c cs ih =>
    by_cases hc : c = sep
    · simp [hc]
    · have hcs : sep ∈ cs := by
        rcases List.mem_cons.mp hh with e | e
        · exact absurd e.symm hc
        · exact e
      simp [hc, ih hcs]

/-- A text is its part before the first separator followed by nothing or by a
remainder that starts with the separator. -/
theorem takeWhile_ne_split (sep : Char) (l : List Char) :
    ∃ rest, l = l.takeWhile (fun c => c != sep) ++ rest ∧
      (rest = [] ∨ ∃ rest', rest = sep :: rest') := by
  induction l with
  | nil => exact ⟨[], rfl, Or.inl rfl⟩
  | cons c cs ih =>
    by_cases hc : c = sep
    · exact ⟨c :: cs, by simp [hc], Or.inr ⟨cs, by rw [hc]⟩⟩
    · obtain ⟨rest, h1, h2⟩ := ih
      refine ⟨rest, ?_, h2⟩
      simp only [List.takeWhile_cons, bne_iff_ne, ne_eq, hc, not_false_eq_true, decide_True,
        if_true, List.cons_append]
      rw [← h1]

theorem acceptLoop_nil (r : RCON W) (s : ServeState) : r.acceptLoop s [] = s := rfl

theorem acceptLoop_cons (r : RCON W) (s : ServeState) (o : AcceptOutcome)
    (os : List AcceptOutcome) :
    r.acceptLoop s (o :: os) =
      if s.result.isSome then s else r.acceptLoop (r.acceptIteration s o) os := rfl

theorem acceptLoop_of_returned (r : RCON W) (s : ServeState) (os : List AcceptOutcome)
    (h : s.result.isSome = true) : r.acceptLoop s os = s := by
  cases os with
  | nil => rfl
  | cons o os => simp [acceptLoop_cons, h]

theorem acceptLoop_append (r : RCON W) (s : ServeState) (a b : List AcceptOutcome) :
    r.acceptLoop s (a ++ b) = r.acceptLoop (r.acceptLoop s a) b := by
  induction a generalizing s with
  | nil => rfl
  | cons o a ih =>
    by_cases h : s.result.isSome = true
    · simp [acceptLoop_cons, h, acceptLoop_of_returned]
    · simp [acceptLoop_cons, h, ih]

theorem ListenAndServe_bound (r : RCON W) (accepts : List AcceptOutcome) :
    r.ListenAndServe none accepts =
      r.acceptLoop
        { result := none, trace := [ServerAction.listen (r.host ++ ":" ++ toString r.port)] }
        accepts := rfl

/-- Continuing a serving run that has not returned by one more `Accept`. -/
theorem ListenAndServe_step (r : RCON W) (pre : List AcceptOutcome) (o : AcceptOutcome)
    (rest : List AcceptOutcome) (h : (r.ListenAndServe none pre).result = none) :
    r.ListenAndServe none (pre ++ o :: rest) =
      r.acceptLoop (r.acceptIteration (r.ListenAndServe none pre) o) rest := by
  rw [ListenAndServe_bound, acceptLoop_append, ← ListenAndServe_bound, acceptLoop_cons, h]
  rfl

theorem acceptIteration_conn_result (r : RCON W) (s : ServeState) (c : Conn) :
    (r.acceptIteration s (AcceptOutcome.conn c)).result = s.result := by
  unfold RCON.acceptIteration
  simp only []
  split <;> rfl

/-- While no `Accept` fails, a successfully bound `ListenAndServe` does not
return. -/
theorem acceptLoop_running (r : RCON W) (s : ServeState) (os : List AcceptOutcome)
    (hs : s.result = none) (hos : ∀ o ∈ os, o ≠ AcceptOutcome.error) :
    (r.acceptLoop s os).result = none := by
  induction os generalizing s with
  | nil => exact hs
  | cons o os ih =>
    rw [acceptLoop_cons, hs]
    simp only [Option.isSome_none, Bool.false_eq_true, if_false]
    apply ih
    · cases o with
      | error => exact absurd rfl (hos _ (List.mem_cons_self _ _))
      | conn c => rw [acceptIteration_conn_result]; exact hs
    · intro o' ho'
      exact hos o' (List.mem_cons_of_mem _ ho')

/-- The result of a bound `ListenAndServe` is never a non-nil error. -/
theorem acceptLoop_result (r : RCON W) (s : ServeState) (os : List AcceptOutcome)
    (hs : s.result = none) :
    (r.acceptLoop s os).result = none ∨ (r.acceptLoop s os).result = some none := by
  induction os generalizing s with
  | nil => exact Or.inl hs
  | cons o os ih =>
    rw [acceptLoop_cons, hs]
    simp only [Option.isSome_none, Bool.false_eq_true, if_false]
    cases o with
    | error =>
      right
      rw [acceptLoop_of_returned]
      · rfl
      · rfl
    | conn c =>
      apply ih
      rw [acceptIteration_conn_result]
      exact hs

/-- What one iteration of the accept loop does when `Accept` fails. -/
theorem acceptIteration_error (r : RCON W) (s : ServeState) :
    r.acceptIteration s AcceptOutcome.error =
      { result := some none
        trace := s.trace ++
          [ServerAction.accept AcceptOutcome.error, ServerAction.closeListener] } := by
  simp [RCON.acceptIteration]

/-- What one iteration of the accept loop does with an accepted connection. -/
theorem acceptIteration_conn (r : RCON W) (s : ServeState) (c : Conn) :
    r.acceptIteration s (AcceptOutcome.conn c) =
      { result := s.result
        trace := s.trace ++
          [ServerAction.accept (AcceptOutcome.conn c),
           if addressWithoutPort c.remoteAddr ∈ r.banList then ServerAction.closeConn c
           else ServerAction.serve c] } := by
  by_cases h : addressWithoutPort c.remoteAddr ∈ r.banList
  · have hb : r.addressInBanList (addressWithoutPort c.remoteAddr) = true :=
      (addressInBanList_iff r _).mpr h
    simp [RCON.acceptIteration, hb, h]
  · have hb : r.addressInBanList (addressWithoutPort c.remoteAddr) = false := by
      cases hc : r.addressInBanList (addressWithoutPort c.remoteAddr) with
      | false => rfl
      | true => exact absurd ((addressInBanList_iff r _).mp hc) h
    simp [RCON.acceptIteration, hb, h]

end ListenerBasic

/-! ## Authentication gates the handler -/

section Gating

variable {W : Type}

/-- C1 (auth gating).  Whenever the trace of a run holds a handler invocation,
the part of the trace before it holds the parse of an AUTH packet whose body is
the configured password, directly followed by the write of its echo response;
and the invocation was made in an iteration that started with the flag set and
the loop running, for the EXECCOMMAND packet read in that iteration. -/
theorem auth_gating (r : RCON W) (conn : Conn) (os : List DecodeOutcome) (w : W)
    (pre post : List Action) (c : String) (cl : Client)
    (h : (r.acceptConnection conn os w).trace = pre ++ Action.handled c cl :: post) :
    (∃ p : Packet, p.Type_ = ServerDataAuth ∧ p.Body = r.password ∧
        [Action.parsed (DecodeOutcome.packet p),
         Action.wrote (EncodePacket
           { ID := p.ID, Type_ := ServerDataAuthResponse, Body := "" }).1] <:+: pre) ∧
      ∃ (k : Nat) (q : Packet), os[k]? = some (DecodeOutcome.packet q) ∧
        q.Type_ = ServerDataExecCommand ∧
        (r.acceptConnection conn (os.take k) w).authenticated = true ∧
        (r.acceptConnection conn (os.take k) w).exited = false ∧
        pre = (r.acceptConnection conn (os.take k) w).trace ++
          [Action.parsed (DecodeOutcome.packet q)] ∧
        c = q.Body ∧ cl = NewClient conn q := by
  induction os using List.reverseRecOn generalizing pre post with
  | nil => exact absurd h (by simp [RCON.acceptConnection, loop_nil])
  | append_singleton l o ih =>
    have lift : ∀ pre0 : List Action,
        (∃ (k : Nat) (q : Packet), l[k]? = some (DecodeOutcome.packet q) ∧
          q.Type_ = ServerDataExecCommand ∧
          (r.acceptConnection conn (l.take k) w).authenticated = true ∧
          (r.acceptConnection conn (l.take k) w).exited = false ∧
          pre0 = (r.acceptConnection conn (l.take k) w).trace ++
            [Action.parsed (DecodeOutcome.packet q)] ∧
          c = q.Body ∧ cl = NewClient conn q) →
        ∃ (k : Nat) (q : Packet), (l ++ [o])[k]? = some (DecodeOutcome.packet q) ∧
          q.Type_ = ServerDataExecCommand ∧
          (r.acceptConnection conn ((l ++ [o]).take k) w).authenticated = true ∧
          (r.acceptConnection conn ((l ++ [o]).take k) w).exited = false ∧
          pre0 = (r.acceptConnection conn ((l ++ [o]).take k) w).trace ++
            [Action.parsed (DecodeOutcome.packet q)] ∧
          c = q.Body ∧ cl = NewClient conn q := by
      rintro pre0 ⟨k, q, hk, hrest⟩
      have hlt : k < l.length := by
        by_contra hge
        rw [List.getElem?_eq_none (Nat.le_of_not_lt hge)] at hk
        exact absurd hk (by simp)
      refine ⟨k, q, ?_, ?_⟩
      · rw [List.getElem?_append_left hlt]
        exact hk
      · rw [List.take_append_of_le_length (Nat.le_of_lt hlt)]
        exact hrest
    rw [acceptConnection_concat] at h
    by_cases hex : (r.acceptConnection conn l w).exited = true
    · rw [if_pos hex] at h
      exact ⟨(ih pre post h).1, lift pre (ih pre post h).2⟩
    · rw [if_neg hex] at h
      obtain ⟨d, hd, hcase⟩ := iteration_trace_delta r conn (r.acceptConnection conn l w) o
      rw [hd] at h
      rcases hcase with hno | ⟨q, rfl, ha, ht, rfl⟩
      · have hnot : Action.handled c cl ∉ Action.parsed o :: d := by
          simp [hno c cl]
        obtain ⟨post', hp⟩ := split_left_of_not_mem _ _ _ _ _ h hnot
        exact ⟨(ih pre post' hp).1, lift pre (ih pre post' hp).2⟩
      · rcases List.eq_nil_or_concat post with rfl | ⟨L, b, rfl⟩
        · have h' : ((r.acceptConnection conn l w).trace ++
              [Action.parsed (DecodeOutcome.packet q)]) ++
                [Action.handled q.Body (NewClient conn q)] =
              pre ++ [Action.handled c cl] := by simpa using h
          obtain ⟨hpre, hlast⟩ := List.append_inj' h' rfl
          simp only [List.cons.injEq, Action.handled.injEq, and_true] at hlast
          obtain ⟨p, hp1, hp2, _, hp4⟩ := authenticated_has_auth r conn l w ha
          refine ⟨⟨p, hp1, hp2, ?_⟩, l.length, q, ?_, ht, ?_⟩
          · rw [← hpre]
            exact hp4.trans (List.prefix_append _ _).isInfix
          · exact List.getElem?_concat_length l _
          · rw [List.take_left]
            exact ⟨ha, by simpa using hex, hpre.symm, hlast.1.symm, hlast.2.symm⟩
        · have h' : ((r.acceptConnection conn l w).trace ++
              [Action.parsed (DecodeOutcome.packet q)]) ++
                [Action.handled q.Body (NewClient conn q)] =
              (pre ++ Action.handled c cl :: L) ++ [b] := by simpa using h
          obtain ⟨hinit, _⟩ := List.append_inj' h' rfl
          obtain ⟨post', hp⟩ := split_left_of_not_mem _ _ _ _ _ hinit (by simp)
          exact ⟨(ih pre post' hp).1, lift pre (ih pre post' hp).2⟩

/-- Witness of C1: the invocation for `status` comes after the parse of the
packet carrying `secret` and the write of its echo. -/
theorem auth_gating_witness :
    (∃ p : Packet, p.Type_ = ServerDataAuth ∧ p.Body = exampleServer.password ∧
        [Action.parsed (DecodeOutcome.packet p),
         Action.wrote (EncodePacket
           { ID := p.ID, Type_ := ServerDataAuthResponse, Body := "" }).1] <:+:
          [Action.parsed (DecodeOutcome.packet { ID := 1, Type_ := 3, Body := "secret" }),
           Action.wrote [10, 0, 0, 0, 1, 0, 0, 0, 2, 0, 0, 0, 0, 0],
           Action.parsed (DecodeOutcome.packet { ID := 2, Type_ := 2, Body := "status" })]) ∧
      ∃ (k : Nat) (q : Packet),
        [DecodeOutcome.packet { ID := 1, Type_ := 3, Body := "secret" },
         DecodeOutcome.packet { ID := 2, Type_ := 2, Body := "status" }][k]? =
          some (DecodeOutcome.packet q) ∧
        q.Type_ = ServerDataExecCommand ∧
        (exampleServer.acceptConnection exampleConn
          ([DecodeOutcome.packet { ID := 1, Type_ := 3, Body := "secret" },
            DecodeOutcome.packet { ID := 2, Type_ := 2, Body := "status" }].take k)
          []).authenticated = true ∧
        (exampleServer.acceptConnection exampleConn
          ([DecodeOutcome.packet { ID := 1, Type_ := 3, Body := "secret" },
            DecodeOutcome.packet { ID := 2, Type_ := 2, Body := "status" }].take k)
          []).exited = false ∧
        [Action.parsed (DecodeOutcome.packet { ID := 1, Type_ := 3, Body := "secret" }),
           Action.wrote [10, 0, 0, 0, 1, 0, 0, 0, 2, 0, 0, 0, 0, 0],
           Action.parsed (DecodeOutcome.packet { ID := 2, Type_ := 2, Body := "status" })] =
          (exampleServer.acceptConnection exampleConn
            ([DecodeOutcome.packet { ID := 1, Type_ := 3, Body := "secret" },
              DecodeOutcome.packet { ID := 2, Type_ := 2, Body := "status" }].take k)
            []).trace ++ [Action.parsed (DecodeOutcome.packet q)] ∧
        "status" = q.Body ∧ ({ conn := exampleConn, ID := 2 } : Client) = NewClient exampleConn q :=
  auth_gating exampleServer exampleConn
    [DecodeOutcome.packet { ID := 1, Type_ := 3, Body := "secret" },
     DecodeOutcome.packet { ID := 2, Type_ := 2, Body := "status" }] []
    [Action.parsed (DecodeOutcome.packet { ID := 1, Type_ := 3, Body := "secret" }),
     Action.wrote [10, 0, 0, 0, 1, 0, 0, 0, 2, 0, 0, 0, 0, 0],
     Action.parsed (DecodeOutcome.packet { ID := 2, Type_ := 2, Body := "status" })]
    [] "status" { conn := exampleConn, ID := 2 } (by decide)

end Gating

/-! ## The transition table, row by row -/

section Rows

variable {W : Type}

/-- C2 (auth success echo).  With a non-empty password, an AUTH packet whose
body equals the password, arriving on an open and unauthenticated connection,
makes the handler write exactly the encoding of the packet with the request's
id, type AUTH_RESPONSE and empty body; it does not close, leaves the loop
running and sets the authenticated flag. -/
theorem auth_success_echo (r : RCON W) (conn : Conn) (pre : List DecodeOutcome) (p : Packet)
    (w : W) (hpw : r.password ≠ "") (ht : p.Type_ = ServerDataAuth)
    (hb : p.Body = r.password)
    (hopen : (r.acceptConnection conn pre w).exited = false)
    (hun : (r.acceptConnection conn pre w).authenticated = false) :
    r.acceptConnection conn (pre ++ [DecodeOutcome.packet p]) w =
      { authenticated := true
        exited := false
        trace := (r.acceptConnection conn pre w).trace ++
          [Action.parsed (DecodeOutcome.packet p),
           Action.wrote (EncodePacket
             { ID := p.ID, Type_ := ServerDataAuthResponse, Body := "" }).1]
        world := (r.acceptConnection conn pre w).world } := by
  rw [acceptConnection_step r conn pre _ [] w hopen, loop_nil,
    iteration_auth_ok r conn _ p (Or.inl hun) ht hpw hb, hopen]

/-- Witness of C2: the first packet of a connection is `AUTH` with id 1 and the
right password. -/
theorem auth_success_echo_witness :
    exampleServer.acceptConnection exampleConn
        ([] ++ [DecodeOutcome.packet { ID := 1, Type_ := 3, Body := "secret" }]) [] =
      { authenticated := true
        exited := false
        trace := (exampleServer.acceptConnection exampleConn [] []).trace ++
          [Action.parsed (DecodeOutcome.packet { ID := 1, Type_ := 3, Body := "secret" }),
           Action.wrote (EncodePacket
             { ID := 1, Type_ := ServerDataAuthResponse, Body := "" }).1]
        world := (exampleServer.acceptConnection exampleConn [] []).world } :=
  auth_success_echo exampleServer exampleConn [] { ID := 1, Type_ := 3, Body := "secret" } []
    (by decide) (by decide) (by decide) (by decide) (by decide)

/-- C3 (auth failure sentinel).  With a non-empty password, an AUTH packet whose
body differs from the password, arriving on an open and unauthenticated
connection, makes the handler write exactly the encoding of the packet with
id -1, type AUTH_RESPONSE and empty body, then close the connection and leave
the loop: whatever outcomes follow are not read, the handler is not invoked and
the flag stays false. -/
theorem auth_failure_sentinel (r : RCON W) (conn : Conn) (pre : List DecodeOutcome)
    (p : Packet) (rest : List DecodeOutcome) (w : W) (hpw : r.password ≠ "")
    (ht : p.Type_ = ServerDataAuth) (hb : p.Body ≠ r.password)
    (hopen : (r.acceptConnection conn pre w).exited = false)
    (hun : (r.acceptConnection conn pre w).authenticated = false) :
    r.acceptConnection conn (pre ++ DecodeOutcome.packet p :: rest) w =
      { authenticated := false
        exited := true
        trace := (r.acceptConnection conn pre w).trace ++
          [Action.parsed (DecodeOutcome.packet p),
           Action.wrote (EncodePacket
             { ID := -1, Type_ := ServerDataAuthResponse, Body := "" }).1,
           Action.closed]
        world := (r.acceptConnection conn pre w).world } := by
  rw [acceptConnection_step r conn pre _ rest w hopen,
    iteration_auth_wrong r conn _ p (Or.inl hun) ht hpw hb, loop_of_exited _ _ _ _ rfl, hun]

/-- Witness of C3: `AUTH` with id 5 and a wrong password, followed by a command
that is never read. -/
theorem auth_failure_sentinel_witness :
    exampleServer.acceptConnection exampleConn
        ([] ++ DecodeOutcome.packet { ID := 5, Type_ := 3, Body := "wrong" } ::
          [DecodeOutcome.packet { ID := 6, Type_ := 2, Body := "status" }]) [] =
      { authenticated := false
        exited := true
        trace := (exampleServer.acceptConnection exampleConn [] []).trace ++
          [Action.parsed (DecodeOutcome.packet { ID := 5, Type_ := 3, Body := "wrong" }),
           Action.wrote (EncodePacket
             { ID := -1, Type_ := ServerDataAuthResponse, Body := "" }).1,
           Action.closed]
        world := (exampleServer.acceptConnection exampleConn [] []).world } :=
  auth_failure_sentinel exampleServer exampleConn [] { ID := 5, Type_ := 3, Body := "wrong" }
    [DecodeOutcome.packet { ID := 6, Type_ := 2, Body := "status" }] []
    (by decide) (by decide) (by decide) (by decide) (by decide)

/-- C4 (empty-password refusal).  When the configured password is empty, an AUTH
packet with any id and any body, arriving on a connection that is still open,
makes the handler close the connection and leave the loop: nothing is written,
the handler is not invoked, and the flag is false there and after every run. -/
theorem empty_password_refusal (r : RCON W) (conn : Conn) (pre : List DecodeOutcome)
    (p : Packet) (rest : List DecodeOutcome) (w : W) (hpw : r.password = "")
    (ht : p.Type_ = ServerDataAuth)
    (hopen : (r.acceptConnection conn pre w).exited = false) :
    r.acceptConnection conn (pre ++ DecodeOutcome.packet p :: rest) w =
        { authenticated := false
          exited := true
          trace := (r.acceptConnection conn pre w).trace ++
            [Action.parsed (DecodeOutcome.packet p), Action.closed]
          world := (r.acceptConnection conn pre w).world } ∧
      ∀ os : List DecodeOutcome, (r.acceptConnection conn os w).authenticated = false := by
  have hall : ∀ os : List DecodeOutcome,
      (r.acceptConnection conn os w).authenticated = false :=
    fun os => loop_unauthenticated_of_empty r conn _ os hpw rfl
  refine ⟨?_, hall⟩
  rw [acceptConnection_step r conn pre _ rest w hopen,
    iteration_auth_empty r conn _ p (Or.inl (hall pre)) ht hpw, loop_of_exited _ _ _ _ rfl,
    hall pre]

/-- Witness of C4: an `AUTH` packet with empty body sent to a server whose
password is empty. -/
theorem empty_password_refusal_witness :
    openServer.acceptConnection exampleConn
          ([] ++ DecodeOutcome.packet { ID := 1, Type_ := 3, Body := "" } :: []) [] =
        { authenticated := false
          exited := true
          trace := (openServer.acceptConnection exampleConn [] []).trace ++
            [Action.parsed (DecodeOutcome.packet { ID := 1, Type_ := 3, Body := "" }),
             Action.closed]
          world := (openServer.acceptConnection exampleConn [] []).world } ∧
      ∀ os : List DecodeOutcome,
        (openServer.acceptConnection exampleConn os []).authenticated = false :=
  empty_password_refusal openServer exampleConn [] { ID := 1, Type_ := 3, Body := "" } [] []
    (by decide) (by decide) (by decide)

/-- C5 (non-AUTH packet before authentication).  A decoded packet whose type is
not AUTH, arriving on an open and unauthenticated connection, makes the handler
close the connection and leave the loop: nothing is written, the handler is not
invoked and the outcomes that follow are not read. -/
theorem unauthenticated_non_auth_closes (r : RCON W) (conn : Conn)
    (pre : List DecodeOutcome) (p : Packet) (rest : List DecodeOutcome) (w : W)
    (ht : p.Type_ ≠ ServerDataAuth)
    (hopen : (r.acceptConnection conn pre w).exited = false)
    (hun : (r.acceptConnection conn pre w).authenticated = false) :
    r.acceptConnection conn (pre ++ DecodeOutcome.packet p :: rest) w =
      { authenticated := false
        exited := true
        trace := (r.acceptConnection conn pre w).trace ++
          [Action.parsed (DecodeOutcome.packet p), Action.closed]
        world := (r.acceptConnection conn pre w).world } := by
  rw [acceptConnection_step r conn pre _ rest w hopen,
    iteration_not_auth r conn _ p (Or.inl hun) ht, loop_of_exited _ _ _ _ rfl, hun]

/-- Witness of C5: a command sent before any authentication, followed by the
right password that is never read. -/
theorem unauthenticated_non_auth_closes_witness :
    exampleServer.acceptConnection exampleConn
        ([] ++ DecodeOutcome.packet { ID := 2, Type_ := 2, Body := "status" } ::
          [DecodeOutcome.packet { ID := 3, Type_ := 3, Body := "secret" }]) [] =
      { authenticated := false
        exited := true
        trace := (exampleServer.acceptConnection exampleConn [] []).trace ++
          [Action.parsed (DecodeOutcome.packet { ID := 2, Type_ := 2, Body := "status" }),
           Action.closed]
        world := (exampleServer.acceptConnection exampleConn [] []).world } :=
  unauthenticated_non_auth_closes exampleServer exampleConn []
    { ID := 2, Type_ := 2, Body := "status" }
    [DecodeOutcome.packet { ID := 3, Type_ := 3, Body := "secret" }] []
    (by decide) (by decide) (by decide)

/-- C8 (nil handler).  When no handler is registered, an EXECCOMMAND packet that
arrives on an open and authenticated connection changes nothing but the record
that it was read: nothing is written, the connection is not closed, the flag
stays true, and the outcomes that follow are processed from that state. -/
theorem nil_handler_ignores_command (r : RCON W) (conn : Conn) (pre : List DecodeOutcome)
    (p : Packet) (w : W) (hnil : r.commandHandler = none)
    (ht : p.Type_ = ServerDataExecCommand)
    (hopen : (r.acceptConnection conn pre w).exited = false)
    (hauth : (r.acceptConnection conn pre w).authenticated = true) :
    r.acceptConnection conn (pre ++ [DecodeOutcome.packet p]) w =
        { authenticated := true
          exited := false
          trace := (r.acceptConnection conn pre w).trace ++
            [Action.parsed (DecodeOutcome.packet p)]
          world := (r.acceptConnection conn pre w).world } ∧
      ∀ rest : List DecodeOutcome,
        r.acceptConnection conn (pre ++ DecodeOutcome.packet p :: rest) w =
          r.loop conn
            { authenticated := true
              exited := false
              trace := (r.acceptConnection conn pre w).trace ++
                [Action.parsed (DecodeOutcome.packet p)]
              world := (r.acceptConnection conn pre w).world } rest := by
  have key : ∀ rest : List DecodeOutcome,
      r.acceptConnection conn (pre ++ DecodeOutcome.packet p :: rest) w =
        r.loop conn
          { authenticated := true
            exited := false
            trace := (r.acceptConnection conn pre w).trace ++
              [Action.parsed (DecodeOutcome.packet p)]
            world := (r.acceptConnection conn pre w).world } rest := by
    intro rest
    rw [acceptConnection_step r conn pre _ rest w hopen,
      iteration_exec_none r conn _ p hnil hauth ht, hopen, hauth]
  exact ⟨key [], key⟩

/-- Witness of C8: after a successful authentication, a command sent to the
server without handler. -/
theorem nil_handler_ignores_command_witness :
    silentServer.acceptConnection exampleConn
          ([DecodeOutcome.packet { ID := 1, Type_ := 3, Body := "secret" }] ++
            [DecodeOutcome.packet { ID := 2, Type_ := 2, Body := "status" }]) [] =
        { authenticated := true
          exited := false
          trace := (silentServer.acceptConnection exampleConn
              [DecodeOutcome.packet { ID := 1, Type_ := 3, Body := "secret" }] []).trace ++
            [Action.parsed (DecodeOutcome.packet { ID := 2, Type_ := 2, Body := "status" })]
          world := (silentServer.acceptConnection exampleConn
              [DecodeOutcome.packet { ID := 1, Type_ := 3, Body := "secret" }] []).world } ∧
      ∀ rest : List DecodeOutcome,
        silentServer.acceptConnection exampleConn
            ([DecodeOutcome.packet { ID := 1, Type_ := 3, Body := "secret" }] ++
              DecodeOutcome.packet { ID := 2, Type_ := 2, Body := "status" } :: rest) [] =
          silentServer.loop exampleConn
            { authenticated := true
              exited := false
              trace := (silentServer.acceptConnection exampleConn
                  [DecodeOutcome.packet { ID := 1, Type_ := 3, Body := "secret" }] []).trace ++
                [Action.parsed (DecodeOutcome.packet { ID := 2, Type_ := 2, Body := "status" })]
              world := (silentServer.acceptConnection exampleConn
                  [DecodeOutcome.packet { ID := 1, Type_ := 3, Body := "secret" }] []).world }
            rest :=
  nil_handler_ignores_command silentServer exampleConn
    [DecodeOutcome.packet { ID := 1, Type_ := 3, Body := "secret" }]
    { ID := 2, Type_ := 2, Body := "status" } [] rfl (by decide) (by decide) (by decide)

/-- C9 (decode error).  On a connection that is still open, authenticated or
not, a decode outcome that is an error other than end-of-stream changes nothing
but the record that it was read: no close, no write, no handler invocation, the
flag is unchanged, and the outcomes that follow are processed from that state. -/
theorem decode_error_discarded (r : RCON W) (conn : Conn) (pre : List DecodeOutcome)
    (w : W) (hopen : (r.acceptConnection conn pre w).exited = false) :
    r.acceptConnection conn (pre ++ [DecodeOutcome.error]) w =
        { authenticated := (r.acceptConnection conn pre w).authenticated
          exited := false
          trace := (r.acceptConnection conn pre w).trace ++ [Action.parsed DecodeOutcome.error]
          world := (r.acceptConnection conn pre w).world } ∧
      ∀ rest : List DecodeOutcome,
        r.acceptConnection conn (pre ++ DecodeOutcome.error :: rest) w =
          r.loop conn
            { authenticated := (r.acceptConnection conn pre w).authenticated
              exited := false
              trace := (r.acceptConnection conn pre w).trace ++
                [Action.parsed DecodeOutcome.error]
              world := (r.acceptConnection conn pre w).world } rest := by
  have key : ∀ rest : List DecodeOutcome,
      r.acceptConnection conn (pre ++ DecodeOutcome.error :: rest) w =
        r.loop conn
          { authenticated := (r.acceptConnection conn pre w).authenticated
            exited := false
            trace := (r.acceptConnection conn pre w).trace ++
              [Action.parsed DecodeOutcome.error]
            world := (r.acceptConnection conn pre w).world } rest := by
    intro rest
    rw [acceptConnection_step r conn pre _ rest w hopen, iteration_error, hopen]
  exact ⟨key [], key⟩

/-- Witness of C9: a decode error right after a successful authentication. -/
theorem decode_error_discarded_witness :
    exampleServer.acceptConnection exampleConn
          ([DecodeOutcome.packet { ID := 1, Type_ := 3, Body := "secret" }] ++
            [DecodeOutcome.error]) [] =
        { authenticated := (exampleServer.acceptConnection exampleConn
              [DecodeOutcome.packet { ID := 1, Type_ := 3, Body := "secret" }] []).authenticated
          exited := false
          trace := (exampleServer.acceptConnection exampleConn
              [DecodeOutcome.packet { ID := 1, Type_ := 3, Body := "secret" }] []).trace ++
            [Action.parsed DecodeOutcome.error]
          world := (exampleServer.acceptConnection exampleConn
              [DecodeOutcome.packet { ID := 1, Type_ := 3, Body := "secret" }] []).world } ∧
      ∀ rest : List DecodeOutcome,
        exampleServer.acceptConnection exampleConn
            ([DecodeOutcome.packet { ID := 1, Type_ := 3, Body := "secret" }] ++
              DecodeOutcome.error :: rest) [] =
          exampleServer.loop exampleConn
            { authenticated := (exampleServer.acceptConnection exampleConn
                [DecodeOutcome.packet { ID := 1, Type_ := 3, Body := "secret" }] []).authenticated
              exited := false
              trace := (exampleServer.acceptConnection exampleConn
                  [DecodeOutcome.packet { ID := 1, Type_ := 3, Body := "secret" }] []).trace ++
                [Action.parsed DecodeOutcome.error]
              world := (exampleServer.acceptConnection exampleConn
                  [DecodeOutcome.packet { ID := 1, Type_ := 3, Body := "secret" }] []).world }
            rest :=
  decode_error_discarded exampleServer exampleConn
    [DecodeOutcome.packet { ID := 1, Type_ := 3, Body := "secret" }] [] (by decide)

/-- C10 (end of stream).  On a connection that is still open, authenticated or
not, an end-of-stream decode outcome makes the handler close the connection and
leave the loop: nothing is written, the handler is not invoked, the flag is
unchanged and the outcomes that follow are not read. -/
theorem end_of_stream_closes (r : RCON W) (conn : Conn) (pre : List DecodeOutcome)
    (rest : List DecodeOutcome) (w : W)
    (hopen : (r.acceptConnection conn pre w).exited = false) :
    r.acceptConnection conn (pre ++ DecodeOutcome.eof :: rest) w =
      { authenticated := (r.acceptConnection conn pre w).authenticated
        exited := true
        trace := (r.acceptConnection conn pre w).trace ++
          [Action.parsed DecodeOutcome.eof, Action.closed]
        world := (r.acceptConnection conn pre w).world } := by
  rw [acceptConnection_step r conn pre _ rest w hopen, iteration_eof,
    loop_of_exited _ _ _ _ rfl]

/-- Witness of C10: the peer hangs up right after authenticating. -/
theorem end_of_stream_closes_witness :
    exampleServer.acceptConnection exampleConn
        ([DecodeOutcome.packet { ID := 1, Type_ := 3, Body := "secret" }] ++
          DecodeOutcome.eof :: [DecodeOutcome.error]) [] =
      { authenticated := (exampleServer.acceptConnection exampleConn
            [DecodeOutcome.packet { ID := 1, Type_ := 3, Body := "secret" }] []).authenticated
        exited := true
        trace := (exampleServer.acceptConnection exampleConn
            [DecodeOutcome.packet { ID := 1, Type_ := 3, Body := "secret" }] []).trace ++
          [Action.parsed DecodeOutcome.eof, Action.closed]
        world := (exampleServer.acceptConnection exampleConn
            [DecodeOutcome.packet { ID := 1, Type_ := 3, Body := "secret" }] []).world } :=
  end_of_stream_closes exampleServer exampleConn
    [DecodeOutcome.packet { ID := 1, Type_ := 3, Body := "secret" }] [DecodeOutcome.error] []
    (by decide)

/-- C6 (monotonic flag).  Along a run, the flag goes from false to true only in
an iteration that processes an AUTH packet whose body equals the non-empty
configured password, and once it is true it is true after every continuation
of the run. -/
theorem authenticated_monotonic (r : RCON W) (conn : Conn) (pre : List DecodeOutcome)
    (w : W) :
    (∀ o : DecodeOutcome,
        (r.acceptConnection conn pre w).authenticated = false →
        (r.acceptConnection conn (pre ++ [o]) w).authenticated = true →
        ∃ p, o = DecodeOutcome.packet p ∧ p.Type_ = ServerDataAuth ∧
          p.Body = r.password ∧ r.password ≠ "") ∧
      (∀ rest : List DecodeOutcome,
        (r.acceptConnection conn pre w).authenticated = true →
        (r.acceptConnection conn (pre ++ rest) w).authenticated = true) := by
  constructor
  · intro o hbefore hafter
    rw [acceptConnection_concat] at hafter
    split at hafter
    · rw [hbefore] at hafter
      exact absurd hafter (by simp)
    · rcases iteration_authenticated r conn _ o hafter with h1 | h2
      · rw [hbefore] at h1
        exact absurd h1 (by simp)
      · exact h2
  · intro rest hbefore
    rw [acceptConnection_append]
    exact loop_keeps_authenticated r conn _ rest hbefore

/-- Witness of C6: the flag is set by the packet carrying `secret`, and it is
still set after a decode error and an AUTH packet with a wrong password. -/
theorem authenticated_monotonic_witness :
    (∃ p, DecodeOutcome.packet { ID := 1, Type_ := 3, Body := "secret" } = DecodeOutcome.packet p ∧
        p.Type_ = ServerDataAuth ∧ p.Body = exampleServer.password ∧
        exampleServer.password ≠ "") ∧
      (exampleServer.acceptConnection exampleConn
        ([DecodeOutcome.packet { ID := 1, Type_ := 3, Body := "secret" }] ++
          [DecodeOutcome.error, DecodeOutcome.packet { ID := 2, Type_ := 3, Body := "wrong" }])
        []).authenticated = true :=
  ⟨(authenticated_monotonic exampleServer exampleConn [] []).1
      (DecodeOutcome.packet { ID := 1, Type_ := 3, Body := "secret" }) (by decide) (by decide),
   (authenticated_monotonic exampleServer exampleConn
      [DecodeOutcome.packet { ID := 1, Type_ := 3, Body := "secret" }] []).2
      [DecodeOutcome.error, DecodeOutcome.packet { ID := 2, Type_ := 3, Body := "wrong" }]
      (by decide)⟩

/-- The handler invocations of a run are those for the commands that arrive on
an authenticated and open connection. -/
theorem handlerCalls_of_run (r : RCON W) (conn : Conn) (os : List DecodeOutcome) (w : W)
    (h : String → Client → W → W) (hh : r.commandHandler = some h) :
    handlerCalls (r.acceptConnection conn os w).trace =
      (execArrivals r conn os w).map (fun p => (p.Body, NewClient conn p)) := by
  induction os using List.reverseRecOn with
  | nil => rfl
  | append_singleton l o ih =>
    rw [acceptConnection_concat, execArrivals_concat, List.map_append, ← ih]
    by_cases hex : (r.acceptConnection conn l w).exited = true
    · rw [if_pos hex]
      cases o <;> simp [hex]
    · have hex' : (r.acceptConnection conn l w).exited = false := by simpa using hex
      rw [if_neg hex, iteration_handlerCalls r conn _ o h hh]
      cases o with
      | eof => rfl
      | error => rfl
      | packet p =>
        by_cases hc : ((r.acceptConnection conn l w).authenticated
            && p.Type_ == ServerDataExecCommand) = true
        · simp only [hc, hex']
          simp at hc
          simp [hc]
        · simp only [hc, hex']
          simp at hc
          simpa using hc

/-- The application state after a run is the handler applied, in order, to the
commands that arrive on an authenticated and open connection. -/
theorem world_of_run (r : RCON W) (conn : Conn) (os : List DecodeOutcome) (w : W)
    (h : String → Client → W → W) (hh : r.commandHandler = some h) :
    (r.acceptConnection conn os w).world =
      (execArrivals r conn os w).foldl (fun st p => h p.Body (NewClient conn p) st) w := by
  induction os using List.reverseRecOn with
  | nil => rfl
  | append_singleton l o ih =>
    rw [acceptConnection_concat, execArrivals_concat, List.foldl_append, ← ih]
    by_cases hex : (r.acceptConnection conn l w).exited = true
    · rw [if_pos hex]
      cases o <;> simp [hex]
    · have hex' : (r.acceptConnection conn l w).exited = false := by simpa using hex
      rw [if_neg hex, iteration_world r conn _ o h hh]
      cases o with
      | eof => rfl
      | error => rfl
      | packet p =>
        by_cases hc : ((r.acceptConnection conn l w).authenticated
            && p.Type_ == ServerDataExecCommand) = true
        · simp only [hc, hex']
          simp at hc
          simp [hc]
        · simp only [hc, hex']
          simp at hc
          have hc2 : ¬((r.acceptConnection conn l w).authenticated = true ∧
              p.Type_ = ServerDataExecCommand) := fun hab => hc hab.1 hab.2
          simp [hc2]

/-- C7 (one invocation per authenticated command).  With a handler registered,
the handler invocations of a run are, in order, exactly the EXECCOMMAND packets
that arrive while the connection is authenticated and open: each contributes
one invocation, with the packet's body as command and the client handle built
from the connection and that packet, which carries the packet's id; the
application state is the result of applying the handler to them in order.
These packets are the ones that the specification's state machine, which is
defined from the decode outcomes and the password alone, receives in state
`AUTHENTICATED`; and the iteration that reads such a packet appends to the
trace the parse and one invocation, and applies the handler once. -/
theorem handler_invocations_are_exec_arrivals (r : RCON W) (conn : Conn)
    (os : List DecodeOutcome) (w : W) (h : String → Client → W → W)
    (hh : r.commandHandler = some h) :
    handlerCalls (r.acceptConnection conn os w).trace =
        (execArrivals r conn os w).map (fun p => (p.Body, NewClient conn p)) ∧
      (r.acceptConnection conn os w).world =
        (execArrivals r conn os w).foldl (fun st p => h p.Body (NewClient conn p) st) w ∧
      (∀ p ∈ execArrivals r conn os w,
        (NewClient conn p).ID = p.ID ∧ (NewClient conn p).conn = conn) ∧
      execArrivals r conn os w = specExecArrivals r.password os ∧
      (∀ (k : Nat) (p : Packet), os[k]? = some (DecodeOutcome.packet p) →
        p.Type_ = ServerDataExecCommand →
        specStateAfter r.password (os.take k) = SpecState.authenticated →
        r.acceptConnection conn (os.take (k + 1)) w =
          { authenticated := true
            exited := false
            trace := (r.acceptConnection conn (os.take k) w).trace ++
              [Action.parsed (DecodeOutcome.packet p),
               Action.handled p.Body (NewClient conn p)]
            world := h p.Body (NewClient conn p)
              (r.acceptConnection conn (os.take k) w).world }) := by
  refine ⟨handlerCalls_of_run r conn os w h hh, world_of_run r conn os w h hh,
    fun p _ => ⟨rfl, rfl⟩, execArrivals_eq_spec r conn os w, ?_⟩
  intro k p hget ht hspec
  rw [← acceptConnection_refines_spec r conn (os.take k) w,
    specState_authenticated_iff] at hspec
  obtain ⟨hauth, hopen⟩ := hspec
  rw [List.take_succ, hget, Option.toList, acceptConnection_concat, hopen]
  simp only [Bool.false_eq_true, if_false]
  rw [iteration_exec_some r conn _ p h hh hauth ht, hauth, hopen]

/-- Witness of C7: authentication, a command, a decode error and a second
command, on the server whose handler logs the commands: the handler is invoked
for `status` and for `quit`, with the ids 2 and 3, and the log holds both. -/
theorem handler_invocations_are_exec_arrivals_witness :
    handlerCalls (exampleServer.acceptConnection exampleConn
          [DecodeOutcome.packet { ID := 1, Type_ := 3, Body := "secret" },
           DecodeOutcome.packet { ID := 2, Type_ := 2, Body := "status" },
           DecodeOutcome.error,
           DecodeOutcome.packet { ID := 3, Type_ := 2, Body := "quit" }] []).trace =
        [("status", { conn := exampleConn, ID := 2 }),
         ("quit", { conn := exampleConn, ID := 3 })] ∧
      (exampleServer.acceptConnection exampleConn
          [DecodeOutcome.packet { ID := 1, Type_ := 3, Body := "secret" },
           DecodeOutcome.packet { ID := 2, Type_ := 2, Body := "status" },
           DecodeOutcome.error,
           DecodeOutcome.packet { ID := 3, Type_ := 2, Body := "quit" }] []).world =
        ["status", "quit"] ∧
      exampleServer.acceptConnection exampleConn
          ([DecodeOutcome.packet { ID := 1, Type_ := 3, Body := "secret" },
            DecodeOutcome.packet { ID := 2, Type_ := 2, Body := "status" },
            DecodeOutcome.error,
            DecodeOutcome.packet { ID := 3, Type_ := 2, Body := "quit" }].take (1 + 1)) [] =
        { authenticated := true
          exited := false
          trace :=
            [Action.parsed (DecodeOutcome.packet { ID := 1, Type_ := 3, Body := "secret" }),
             Action.wrote [10, 0, 0, 0, 1, 0, 0, 0, 2, 0, 0, 0, 0, 0],
             Action.parsed (DecodeOutcome.packet { ID := 2, Type_ := 2, Body := "status" }),
             Action.handled "status" { conn := exampleConn, ID := 2 }]
          world := ["status"] } :=
  ⟨(handler_invocations_are_exec_arrivals exampleServer exampleConn
      [DecodeOutcome.packet { ID := 1, Type_ := 3, Body := "secret" },
       DecodeOutcome.packet { ID := 2, Type_ := 2, Body := "status" },
       DecodeOutcome.error,
       DecodeOutcome.packet { ID := 3, Type_ := 2, Body := "quit" }] [] logCommand rfl).1.trans
      (by decide),
   (handler_invocations_are_exec_arrivals exampleServer exampleConn
      [DecodeOutcome.packet { ID := 1, Type_ := 3, Body := "secret" },
       DecodeOutcome.packet { ID := 2, Type_ := 2, Body := "status" },
       DecodeOutcome.error,
       DecodeOutcome.packet { ID := 3, Type_ := 2, Body := "quit" }] [] logCommand rfl).2.1.trans
      (by decide),
   ((handler_invocations_are_exec_arrivals exampleServer exampleConn
      [DecodeOutcome.packet { ID := 1, Type_ := 3, Body := "secret" },
       DecodeOutcome.packet { ID := 2, Type_ := 2, Body := "status" },
       DecodeOutcome.error,
       DecodeOutcome.packet { ID := 3, Type_ := 2, Body := "quit" }] [] logCommand
      rfl).2.2.2.2 1 { ID := 2, Type_ := 2, Body := "status" } (by decide) (by decide)
      (by decide)).trans rfl⟩

end Rows

/-! ## Behaviour of the whole run -/

section Runs

variable {W : Type}

/-- C18 (packets other than commands after authentication).  On an open and
authenticated connection a decoded packet whose type is not EXECCOMMAND is
treated as before authentication: a type other than AUTH closes the
connection; an AUTH packet with a wrong body gets the id -1 response and the
connection is closed; an AUTH packet with the right body gets its echo
response again and the connection stays open and authenticated. -/
theorem authenticated_non_command_packet (r : RCON W) (conn : Conn)
    (pre : List DecodeOutcome) (p : Packet) (rest : List DecodeOutcome) (w : W)
    (hopen : (r.acceptConnection conn pre w).exited = false)
    (hauth : (r.acceptConnection conn pre w).authenticated = true)
    (hne : p.Type_ ≠ ServerDataExecCommand) :
    (p.Type_ ≠ ServerDataAuth →
        r.acceptConnection conn (pre ++ DecodeOutcome.packet p :: rest) w =
          { authenticated := true
            exited := true
            trace := (r.acceptConnection conn pre w).trace ++
              [Action.parsed (DecodeOutcome.packet p), Action.closed]
            world := (r.acceptConnection conn pre w).world }) ∧
      (p.Type_ = ServerDataAuth → p.Body ≠ r.password →
        r.acceptConnection conn (pre ++ DecodeOutcome.packet p :: rest) w =
          { authenticated := true
            exited := true
            trace := (r.acceptConnection conn pre w).trace ++
              [Action.parsed (DecodeOutcome.packet p),
               Action.wrote (EncodePacket
                 { ID := -1, Type_ := ServerDataAuthResponse, Body := "" }).1,
               Action.closed]
            world := (r.acceptConnection conn pre w).world }) ∧
      (p.Type_ = ServerDataAuth → p.Body = r.password →
        r.acceptConnection conn (pre ++ DecodeOutcome.packet p :: rest) w =
          r.loop conn
            { authenticated := true
              exited := false
              trace := (r.acceptConnection conn pre w).trace ++
                [Action.parsed (DecodeOutcome.packet p),
                 Action.wrote (EncodePacket
                   { ID := p.ID, Type_ := ServerDataAuthResponse, Body := "" }).1]
              world := (r.acceptConnection conn pre w).world } rest) := by
  obtain ⟨_, _, _, hpw, _⟩ := authenticated_has_auth r conn pre w hauth
  refine ⟨fun ht => ?_, fun ht hb => ?_, fun ht hb => ?_⟩
  · rw [acceptConnection_step r conn pre _ rest w hopen,
      iteration_not_auth r conn _ p (Or.inr hne) ht, loop_of_exited _ _ _ _ rfl, hauth]
  · rw [acceptConnection_step r conn pre _ rest w hopen,
      iteration_auth_wrong r conn _ p (Or.inr hne) ht hpw hb, loop_of_exited _ _ _ _ rfl,
      hauth]
  · rw [acceptConnection_step r conn pre _ rest w hopen,
      iteration_auth_ok r conn _ p (Or.inr hne) ht hpw hb, hopen]

/-- Witness of C18: after a successful authentication, a second AUTH packet with
a wrong password. -/
theorem authenticated_non_command_packet_witness :
    exampleServer.acceptConnection exampleConn
        ([DecodeOutcome.packet { ID := 1, Type_ := 3, Body := "secret" }] ++
          DecodeOutcome.packet { ID := 2, Type_ := 3, Body := "guess" } :: []) [] =
      { authenticated := true
        exited := true
        trace := (exampleServer.acceptConnection exampleConn
            [DecodeOutcome.packet { ID := 1, Type_ := 3, Body := "secret" }] []).trace ++
          [Action.parsed (DecodeOutcome.packet { ID := 2, Type_ := 3, Body := "guess" }),
           Action.wrote (EncodePacket
             { ID := -1, Type_ := ServerDataAuthResponse, Body := "" }).1,
           Action.closed]
        world := (exampleServer.acceptConnection exampleConn
            [DecodeOutcome.packet { ID := 1, Type_ := 3, Body := "secret" }] []).world } :=
  (authenticated_non_command_packet exampleServer exampleConn
    [DecodeOutcome.packet { ID := 1, Type_ := 3, Body := "secret" }]
    { ID := 2, Type_ := 3, Body := "guess" } [] []
    (by decide) (by decide) (by decide)).2.1 (by decide) (by decide)

/-- C16 (nothing but auth responses is written).  Every write in the trace of a
run directly follows the parse of an AUTH packet, read while the loop was
running, and its bytes are the encoding of the packet with type AUTH_RESPONSE,
empty body and as id either the id of that AUTH packet or -1.  An outcome that
is not an AUTH packet (a packet of any other type, a decode error, end of
stream) adds no write. -/
theorem writes_are_auth_responses (r : RCON W) (conn : Conn) (os : List DecodeOutcome)
    (w : W) :
    (∀ (pre post : List Action) (b : List Nat),
        (r.acceptConnection conn os w).trace = pre ++ Action.wrote b :: post →
        ∃ (k : Nat) (q : Packet), os[k]? = some (DecodeOutcome.packet q) ∧
          q.Type_ = ServerDataAuth ∧
          (r.acceptConnection conn (os.take k) w).exited = false ∧
          pre = (r.acceptConnection conn (os.take k) w).trace ++
            [Action.parsed (DecodeOutcome.packet q)] ∧
          (b = (EncodePacket
              { ID := q.ID, Type_ := ServerDataAuthResponse, Body := "" }).1 ∨
            b = (EncodePacket
              { ID := -1, Type_ := ServerDataAuthResponse, Body := "" }).1)) ∧
      (∀ o : DecodeOutcome, (∀ q, o = DecodeOutcome.packet q → q.Type_ ≠ ServerDataAuth) →
        writes (r.acceptConnection conn (os ++ [o]) w).trace =
          writes (r.acceptConnection conn os w).trace) := by
  constructor
  · induction os using List.reverseRecOn with
    | nil =>
      intro pre post b h
      exact absurd h (by simp [RCON.acceptConnection, loop_nil])
    | append_singleton l o ih =>
      intro pre post b h
      have lift :
          (∃ (k : Nat) (q : Packet), l[k]? = some (DecodeOutcome.packet q) ∧
            q.Type_ = ServerDataAuth ∧
            (r.acceptConnection conn (l.take k) w).exited = false ∧
            pre = (r.acceptConnection conn (l.take k) w).trace ++
              [Action.parsed (DecodeOutcome.packet q)] ∧
            (b = (EncodePacket
                { ID := q.ID, Type_ := ServerDataAuthResponse, Body := "" }).1 ∨
              b = (EncodePacket
                { ID := -1, Type_ := ServerDataAuthResponse, Body := "" }).1)) →
          ∃ (k : Nat) (q : Packet), (l ++ [o])[k]? = some (DecodeOutcome.packet q) ∧
            q.Type_ = ServerDataAuth ∧
            (r.acceptConnection conn ((l ++ [o]).take k) w).exited = false ∧
            pre = (r.acceptConnection conn ((l ++ [o]).take k) w).trace ++
              [Action.parsed (DecodeOutcome.packet q)] ∧
            (b = (EncodePacket
                { ID := q.ID, Type_ := ServerDataAuthResponse, Body := "" }).1 ∨
              b = (EncodePacket
                { ID := -1, Type_ := ServerDataAuthResponse, Body := "" }).1) := by
        rintro ⟨k, q, hk, hrest⟩
        have hlt : k < l.length := by
          by_contra hge
          rw [List.getElem?_eq_none (Nat.le_of_not_lt hge)] at hk
          exact absurd hk (by simp)
        refine ⟨k, q, ?_, ?_⟩
        · rw [List.getElem?_append_left hlt]
          exact hk
        · rw [List.take_append_of_le_length (Nat.le_of_lt hlt)]
          exact hrest
      rw [acceptConnection_concat] at h
      by_cases hex : (r.acceptConnection conn l w).exited = true
      · rw [if_pos hex] at h
        exact lift (ih pre post b h)
      · rw [if_neg hex] at h
        obtain ⟨d, hd, hcase⟩ := iteration_write_delta r conn (r.acceptConnection conn l w) o
        rw [hd] at h
        rcases append_eq_cons_split _ _ _ _ _ h with ⟨post', hp, _⟩ | ⟨d1, hpre, hd1⟩
        · exact lift (ih pre post' b hp)
        · cases d1 with
          | nil => simp at hd1
          | cons x d1' =>
            simp only [List.cons_append, List.cons.injEq] at hd1
            obtain ⟨hx, hd'⟩ := hd1
            rcases hcase with hno | ⟨q, id, tail, rfl, ht, hid, rfl, htail⟩
            · exact absurd (by rw [hd']; simp) (hno b)
            · cases d1' with
              | nil =>
                simp only [List.nil_append, List.cons.injEq, Action.wrote.injEq] at hd'
                refine ⟨l.length, q, List.getElem?_concat_length l _, ht, ?_⟩
                rw [List.take_left]
                refine ⟨by simpa using hex, ?_, ?_⟩
                · rw [hpre, ← hx]
                · rcases hid with rfl | rfl
                  · exact Or.inl hd'.1.symm
                  · exact Or.inr hd'.1.symm
              | cons y d1'' =>
                simp only [List.cons_append, List.cons.injEq] at hd'
                exact absurd (by rw [hd'.2]; simp) (htail b)
  · intro o ho
    rw [acceptConnection_concat]
    by_cases hex : (r.acceptConnection conn os w).exited = true
    · rw [if_pos hex]
    · rw [if_neg hex]
      obtain ⟨d, hd, hcase⟩ := iteration_write_delta r conn (r.acceptConnection conn os w) o
      rcases hcase with hno | ⟨q, _, _, ho', ht, _⟩
      · rw [hd, writes_append, writes_eq_nil (Action.parsed o :: d), List.append_nil]
        intro b hb
        rcases List.mem_cons.mp hb with e | e
        · exact absurd e (by simp)
        · exact hno b e
      · exact absurd ht (ho q ho')

/-- Witness of C16: the one write of the run in which `secret` is sent with
id 1 and then a command arrives. -/
theorem writes_are_auth_responses_witness :
    (∃ (k : Nat) (q : Packet),
        [DecodeOutcome.packet { ID := 1, Type_ := 3, Body := "secret" },
         DecodeOutcome.packet { ID := 2, Type_ := 2, Body := "status" }][k]? =
          some (DecodeOutcome.packet q) ∧
        q.Type_ = ServerDataAuth ∧
        (exampleServer.acceptConnection exampleConn
          ([DecodeOutcome.packet { ID := 1, Type_ := 3, Body := "secret" },
            DecodeOutcome.packet { ID := 2, Type_ := 2, Body := "status" }].take k)
          []).exited = false ∧
        [Action.parsed (DecodeOutcome.packet { ID := 1, Type_ := 3, Body := "secret" })] =
          (exampleServer.acceptConnection exampleConn
            ([DecodeOutcome.packet { ID := 1, Type_ := 3, Body := "secret" },
              DecodeOutcome.packet { ID := 2, Type_ := 2, Body := "status" }].take k)
            []).trace ++ [Action.parsed (DecodeOutcome.packet q)] ∧
        ([10, 0, 0, 0, 1, 0, 0, 0, 2, 0, 0, 0, 0, 0] = (EncodePacket
            { ID := q.ID, Type_ := ServerDataAuthResponse, Body := "" }).1 ∨
          [10, 0, 0, 0, 1, 0, 0, 0, 2, 0, 0, 0, 0, 0] = (EncodePacket
            { ID := -1, Type_ := ServerDataAuthResponse, Body := "" }).1)) ∧
      writes (exampleServer.acceptConnection exampleConn
          ([DecodeOutcome.packet { ID := 1, Type_ := 3, Body := "secret" },
            DecodeOutcome.packet { ID := 2, Type_ := 2, Body := "status" }] ++
            [DecodeOutcome.eof]) []).trace =
        writes (exampleServer.acceptConnection exampleConn
          [DecodeOutcome.packet { ID := 1, Type_ := 3, Body := "secret" },
           DecodeOutcome.packet { ID := 2, Type_ := 2, Body := "status" }] []).trace :=
  ⟨(writes_are_auth_responses exampleServer exampleConn
      [DecodeOutcome.packet { ID := 1, Type_ := 3, Body := "secret" },
       DecodeOutcome.packet { ID := 2, Type_ := 2, Body := "status" }] []).1
      [Action.parsed (DecodeOutcome.packet { ID := 1, Type_ := 3, Body := "secret" })]
      [Action.parsed (DecodeOutcome.packet { ID := 2, Type_ := 2, Body := "status" }),
       Action.handled "status" { conn := exampleConn, ID := 2 }]
      [10, 0, 0, 0, 1, 0, 0, 0, 2, 0, 0, 0, 0, 0] (by decide),
   (writes_are_auth_responses exampleServer exampleConn
      [DecodeOutcome.packet { ID := 1, Type_ := 3, Body := "secret" },
       DecodeOutcome.packet { ID := 2, Type_ := 2, Body := "status" }] []).2
      DecodeOutcome.eof (by intro q hq; cases hq)⟩

/-- C17 (CLOSED is terminal and every termination closes).  In every run the
connection is closed at most once; a close in the trace is its last action;
the loop has been left exactly when the trace holds a close, which is then its
last action; once the loop has been left no further outcome changes anything.
There is at most one failed authentication attempt, and each one consists of
the parse, the write of the id -1 response and the close. -/
theorem closed_is_terminal (r : RCON W) (conn : Conn) (os : List DecodeOutcome) (w : W) :
    closes (r.acceptConnection conn os w).trace ≤ 1 ∧
      ((r.acceptConnection conn os w).exited = true ↔
        closes (r.acceptConnection conn os w).trace = 1) ∧
      ((r.acceptConnection conn os w).exited = true ↔
        (r.acceptConnection conn os w).trace.getLast? = some Action.closed) ∧
      (∀ pre post : List Action,
        (r.acceptConnection conn os w).trace = pre ++ Action.closed :: post → post = []) ∧
      (∀ rest : List DecodeOutcome, (r.acceptConnection conn os w).exited = true →
        r.acceptConnection conn (os ++ rest) w = r.acceptConnection conn os w) ∧
      (failedAuthAttempts r conn os w).length ≤ 1 ∧
      (∀ k ∈ failedAuthAttempts r conn os w, ∃ q, os[k]? = some (DecodeOutcome.packet q) ∧
        (r.acceptConnection conn (os.take (k + 1)) w).trace =
          (r.acceptConnection conn (os.take k) w).trace ++
            [Action.parsed (DecodeOutcome.packet q),
             Action.wrote (EncodePacket
               { ID := -1, Type_ := ServerDataAuthResponse, Body := "" }).1,
             Action.closed]) := by
  have hterm : ∀ rest : List DecodeOutcome, (r.acceptConnection conn os w).exited = true →
      r.acceptConnection conn (os ++ rest) w = r.acceptConnection conn os w := by
    intro rest hex
    rw [acceptConnection_append, loop_of_exited _ _ _ _ hex]
  have hfail : ∀ k ∈ failedAuthAttempts r conn os w,
      ∃ q, os[k]? = some (DecodeOutcome.packet q) ∧
        (r.acceptConnection conn (os.take (k + 1)) w).trace =
          (r.acceptConnection conn (os.take k) w).trace ++
            [Action.parsed (DecodeOutcome.packet q),
             Action.wrote (EncodePacket
               { ID := -1, Type_ := ServerDataAuthResponse, Body := "" }).1,
             Action.closed] := by
    intro k hk
    unfold failedAuthAttempts at hk
    obtain ⟨_, hcond⟩ := List.mem_filter.mp hk
    cases hget : os[k]? with
    | none =>
      rw [hget] at hcond
      exact absurd hcond (by simp)
    | some o =>
      rw [hget] at hcond
      simp only [] at hcond
      obtain ⟨q, rfl, _, _, hit⟩ := isFailedAuth_iteration r conn _ o hcond
      obtain ⟨hrun, _⟩ := isFailedAuth_exits r conn _ _ hcond
      refine ⟨q, rfl, ?_⟩
      rw [List.take_succ, hget, Option.toList, acceptConnection_concat, hrun]
      simp only [Bool.false_eq_true, if_false]
      rw [hit]
  rcases run_close_invariant r conn os w with ⟨hex, hnc⟩ | ⟨hex, t0, ht, hnc⟩
  · have hcount : closes (r.acceptConnection conn os w).trace = 0 :=
      List.count_eq_zero_of_not_mem hnc
    refine ⟨by omega, ?_, ?_, ?_, hterm, (failedAuthAttempts_bound r conn os w).1, hfail⟩
    · rw [hex, hcount]
      simp
    · rw [hex]
      constructor
      · intro h
        exact absurd h (by simp)
      · intro h
        exact absurd (List.mem_of_getLast?_eq_some h) hnc
    · intro pre post h
      exact absurd (by rw [h]; simp) hnc
  · have hcount : closes (r.acceptConnection conn os w).trace = 1 := by
      unfold closes
      rw [ht, List.count_append, List.count_eq_zero_of_not_mem hnc, List.count_singleton_self]
    refine ⟨by omega, ?_, ?_, ?_, hterm, (failedAuthAttempts_bound r conn os w).1, hfail⟩
    · simp [hex, hcount]
    · rw [hex, ht, List.getLast?_concat]
      simp
    · intro pre post h
      rw [ht] at h
      rcases append_eq_cons_split _ _ _ _ _ h with ⟨post', hp, _⟩ | ⟨d1, _, hd1⟩
      · exact absurd (by rw [hp]; simp) hnc
      · cases d1 with
        | nil =>
          simp only [List.nil_append, List.cons.injEq, true_and] at hd1
          exact hd1.symm
        | cons x d1' =>
          simp only [List.cons_append, List.cons.injEq] at hd1
          exact absurd hd1.2 (by simp)

/-- Witness of C17: after a failed authentication the loop has been left, and
the right password sent afterwards changes nothing. -/
theorem closed_is_terminal_witness :
    exampleServer.acceptConnection exampleConn
        ([DecodeOutcome.packet { ID := 5, Type_ := 3, Body := "wrong" }] ++
          [DecodeOutcome.packet { ID := 6, Type_ := 3, Body := "secret" }]) [] =
      exampleServer.acceptConnection exampleConn
        [DecodeOutcome.packet { ID := 5, Type_ := 3, Body := "wrong" }] [] :=
  (closed_is_terminal exampleServer exampleConn
    [DecodeOutcome.packet { ID := 5, Type_ := 3, Body := "wrong" }] []).2.2.2.2.1
    [DecodeOutcome.packet { ID := 6, Type_ := 3, Body := "secret" }] (by decide)

end Runs

/-! ## Two connections at the same time -/

section Isolation

variable {W : Type}

theorem serveBoth_concat (r : RCON W) (connA connB : Conn)
    (schedule : List (Bool × DecodeOutcome)) (e : Bool × DecodeOutcome) (w : W) :
    r.serveBoth connA connB (schedule ++ [e]) w =
      r.serveStep connA connB (r.serveBoth connA connB schedule w) e := by
  simp [RCON.serveBoth, List.foldl_append]

theorem outcomesOf_concat (which : Bool) (schedule : List (Bool × DecodeOutcome))
    (e : Bool × DecodeOutcome) :
    outcomesOf which (schedule ++ [e]) =
      outcomesOf which schedule ++ (if e.1 = which then [e.2] else []) := by
  unfold outcomesOf
  rw [List.filterMap_append]
  by_cases h : e.1 = which <;> simp [h]

/-- Under every schedule, each connection's own state is that of its run alone
on the outcomes the schedule gives it, on any application state. -/
theorem serveBoth_views (r : RCON W) (connA connB : Conn)
    (schedule : List (Bool × DecodeOutcome)) (w wA wB : W) :
    (r.serveBoth connA connB schedule w).first =
        (r.acceptConnection connA (outcomesOf true schedule) wA).view ∧
      (r.serveBoth connA connB schedule w).second =
        (r.acceptConnection connB (outcomesOf false schedule) wB).view := by
  induction schedule using List.reverseRecOn with
  | nil => exact ⟨rfl, rfl⟩
  | append_singleton l e ih =>
    obtain ⟨b, o⟩ := e
    rw [serveBoth_concat, outcomesOf_concat, outcomesOf_concat]
    cases b with
    | true =>
      refine ⟨?_, ?_⟩
      · simp only [RCON.serveStep, if_true]
        rw [acceptConnection_append]
        apply loop_view
        rw [view_withWorld]
        exact ih.1
      · simp only [RCON.serveStep, if_true, Bool.true_eq_false, if_false, List.append_nil]
        exact ih.2
    | false =>
      refine ⟨?_, ?_⟩
      · simp only [RCON.serveStep, Bool.false_eq_true, if_false, List.append_nil]
        exact ih.1
      · simp only [RCON.serveStep, Bool.false_eq_true, if_false, if_true]
        rw [acceptConnection_append]
        apply loop_view
        rw [view_withWorld]
        exact ih.2

/-- C15 (concurrent isolation).  Two connections served at the same time by one
server, under every schedule of their decode outcomes and whatever the handler
does to the shared application state: each connection's authenticated flag,
its trace (parses, responses, close, handler invocations) and whether it has
left the loop are those of its run alone on its own outcomes.  In particular,
when the first sends an AUTH packet with the right password and the second an
AUTH packet with a wrong one, in either order, the first is authenticated and
open with its echo response and the second is closed with the id -1 response. -/
theorem concurrent_isolation (r : RCON W) (connA connB : Conn)
    (schedule : List (Bool × DecodeOutcome)) (w : W) :
    (∀ wA wB : W,
        (r.serveBoth connA connB schedule w).first =
          (r.acceptConnection connA (outcomesOf true schedule) wA).view ∧
        (r.serveBoth connA connB schedule w).second =
          (r.acceptConnection connB (outcomesOf false schedule) wB).view) ∧
      (∀ p q : Packet, r.password ≠ "" →
        p.Type_ = ServerDataAuth → p.Body = r.password →
        q.Type_ = ServerDataAuth → q.Body ≠ r.password →
        outcomesOf true schedule = [DecodeOutcome.packet p] →
        outcomesOf false schedule = [DecodeOutcome.packet q] →
        (r.serveBoth connA connB schedule w).first =
            { authenticated := true
              exited := false
              trace := [Action.parsed (DecodeOutcome.packet p),
                Action.wrote (EncodePacket
                  { ID := p.ID, Type_ := ServerDataAuthResponse, Body := "" }).1] } ∧
          (r.serveBoth connA connB schedule w).second =
            { authenticated := false
              exited := true
              trace := [Action.parsed (DecodeOutcome.packet q),
                Action.wrote (EncodePacket
                  { ID := -1, Type_ := ServerDataAuthResponse, Body := "" }).1,
                Action.closed] }) := by
  refine ⟨fun wA wB => serveBoth_views r connA connB schedule w wA wB, ?_⟩
  intro p q hpw htp hbp htq hbq hA hB
  obtain ⟨h1, h2⟩ := serveBoth_views r connA connB schedule w w w
  rw [h1, h2, hA, hB]
  constructor
  · have hstep := acceptConnection_step r connA [] (DecodeOutcome.packet p) [] w rfl
    rw [List.nil_append] at hstep
    rw [hstep, loop_nil, iteration_auth_ok r connA _ p (Or.inl rfl) htp hpw hbp]
    rfl
  · have hstep := acceptConnection_step r connB [] (DecodeOutcome.packet q) [] w rfl
    rw [List.nil_append] at hstep
    rw [hstep, loop_nil, iteration_auth_wrong r connB _ q (Or.inl rfl) htq hpw hbq]
    rfl

/-- Witness of C15: under the example schedule the first connection ends
authenticated and open after its command, the second closed after its wrong
password; and when each sends one AUTH packet, the second one first, the first
gets its echo and the second the id -1 response. -/
theorem concurrent_isolation_witness :
    ((exampleServer.serveBoth exampleConn otherConn exampleSchedule []).first =
          (exampleServer.acceptConnection exampleConn
            (outcomesOf true exampleSchedule) ["earlier"]).view ∧
        (exampleServer.serveBoth exampleConn otherConn exampleSchedule []).second =
          (exampleServer.acceptConnection otherConn
            (outcomesOf false exampleSchedule) ["other"]).view) ∧
      (exampleServer.serveBoth exampleConn otherConn exampleSchedule []).first.authenticated
        = true ∧
      (exampleServer.serveBoth exampleConn otherConn exampleSchedule []).first.exited
        = false ∧
      (exampleServer.serveBoth exampleConn otherConn exampleSchedule []).second.authenticated
        = false ∧
      (exampleServer.serveBoth exampleConn otherConn exampleSchedule []).second.exited
        = true ∧
      ((exampleServer.serveBoth exampleConn otherConn
          [(false, DecodeOutcome.packet { ID := 7, Type_ := 3, Body := "guess" }),
           (true, DecodeOutcome.packet { ID := 1, Type_ := 3, Body := "secret" })] []).first =
          { authenticated := true
            exited := false
            trace := [Action.parsed (DecodeOutcome.packet
                { ID := 1, Type_ := 3, Body := "secret" }),
              Action.wrote (EncodePacket
                { ID := 1, Type_ := ServerDataAuthResponse, Body := "" }).1] } ∧
        (exampleServer.serveBoth exampleConn otherConn
          [(false, DecodeOutcome.packet { ID := 7, Type_ := 3, Body := "guess" }),
           (true, DecodeOutcome.packet { ID := 1, Type_ := 3, Body := "secret" })] []).second =
          { authenticated := false
            exited := true
            trace := [Action.parsed (DecodeOutcome.packet
                { ID := 7, Type_ := 3, Body := "guess" }),
              Action.wrote (EncodePacket
                { ID := -1, Type_ := ServerDataAuthResponse, Body := "" }).1,
              Action.closed] }) :=
  ⟨(concurrent_isolation exampleServer exampleConn otherConn exampleSchedule []).1
      ["earlier"] ["other"],
   by decide, by decide, by decide, by decide,
   (concurrent_isolation exampleServer exampleConn otherConn
      [(false, DecodeOutcome.packet { ID := 7, Type_ := 3, Body := "guess" }),
       (true, DecodeOutcome.packet { ID := 1, Type_ := 3, Body := "secret" })] []).2
      { ID := 1, Type_ := 3, Body := "secret" } { ID := 7, Type_ := 3, Body := "guess" }
      (by decide) (by decide) (by decide) (by decide) (by decide) (by decide) (by decide)⟩

end Isolation

/-! ## The ban list and the listener -/

section Listener

variable {W : Type}

/-- C11 (ban gating at accept time).  `addressInBanList` returns true exactly for
the strings equal to an entry of the ban list.  For a connection accepted while
`ListenAndServe` is serving, the accept loop closes it and does not start
`acceptConnection` exactly when the remote address without its port is an
entry of the ban list; otherwise it starts `acceptConnection` on it and does
not close it.  In both cases the loop goes on. -/
theorem ban_gating_at_accept (r : RCON W) (pre : List AcceptOutcome) (c : Conn)
    (hrun : (r.ListenAndServe none pre).result = none) :
    (∀ addr : String, r.addressInBanList addr = true ↔ ∃ e ∈ r.banList, e = addr) ∧
      (addressWithoutPort c.remoteAddr ∈ r.banList ↔
        r.ListenAndServe none (pre ++ [AcceptOutcome.conn c]) =
          { result := none
            trace := (r.ListenAndServe none pre).trace ++
              [ServerAction.accept (AcceptOutcome.conn c), ServerAction.closeConn c] }) ∧
      (addressWithoutPort c.remoteAddr ∉ r.banList ↔
        r.ListenAndServe none (pre ++ [AcceptOutcome.conn c]) =
          { result := none
            trace := (r.ListenAndServe none pre).trace ++
              [ServerAction.accept (AcceptOutcome.conn c), ServerAction.serve c] }) := by
  have hstep : r.ListenAndServe none (pre ++ [AcceptOutcome.conn c]) =
      { result := none
        trace := (r.ListenAndServe none pre).trace ++
          [ServerAction.accept (AcceptOutcome.conn c),
           if addressWithoutPort c.remoteAddr ∈ r.banList then ServerAction.closeConn c
           else ServerAction.serve c] } := by
    rw [ListenAndServe_step r pre _ [] hrun, acceptLoop_nil, acceptIteration_conn, hrun]
  refine ⟨fun addr => ?_, ?_, ?_⟩
  · rw [addressInBanList_iff]
    simp
  · rw [hstep]
    by_cases h : addressWithoutPort c.remoteAddr ∈ r.banList <;> simp [h]
  · rw [hstep]
    by_cases h : addressWithoutPort c.remoteAddr ∈ r.banList <;> simp [h]

/-- Witness of C11: the first connection accepted by the server that bans
`10.0.0.5` comes from that host. -/
theorem ban_gating_at_accept_witness :
    (∀ addr : String,
        banningServer.addressInBanList addr = true ↔ ∃ e ∈ banningServer.banList, e = addr) ∧
      (addressWithoutPort bannedConn.remoteAddr ∈ banningServer.banList ↔
        banningServer.ListenAndServe none ([] ++ [AcceptOutcome.conn bannedConn]) =
          { result := none
            trace := (banningServer.ListenAndServe none []).trace ++
              [ServerAction.accept (AcceptOutcome.conn bannedConn),
               ServerAction.closeConn bannedConn] }) ∧
      (addressWithoutPort bannedConn.remoteAddr ∉ banningServer.banList ↔
        banningServer.ListenAndServe none ([] ++ [AcceptOutcome.conn bannedConn]) =
          { result := none
            trace := (banningServer.ListenAndServe none []).trace ++
              [ServerAction.accept (AcceptOutcome.conn bannedConn),
               ServerAction.serve bannedConn] }) :=
  ban_gating_at_accept banningServer [] bannedConn (by decide)

/-- C12 (port stripping).  For a host without `:` and any port text,
`addressWithoutPort` of `host:port` is the host; so a connection accepted from
`host:port` while the server is serving is closed without `acceptConnection`
when the ban list holds the host. -/
theorem port_stripping (host port : String) (hh : ':' ∉ host.data) :
    addressWithoutPort (host ++ ":" ++ port) = host ∧
      ∀ (r : RCON W) (pre : List AcceptOutcome) (c : Conn),
        host ∈ r.banList → c.remoteAddr = host ++ ":" ++ port →
        (r.ListenAndServe none pre).result = none →
        r.addressInBanList (addressWithoutPort c.remoteAddr) = true ∧
        r.ListenAndServe none (pre ++ [AcceptOutcome.conn c]) =
          { result := none
            trace := (r.ListenAndServe none pre).trace ++
              [ServerAction.accept (AcceptOutcome.conn c), ServerAction.closeConn c] } := by
  have hstrip : addressWithoutPort (host ++ ":" ++ port) = host := by
    rw [addressWithoutPort_eq]
    have hdata : (host ++ ":" ++ port).data = host.data ++ ':' :: port.data := by
      simp [String.data_append]
    rw [hdata, takeWhile_ne_append_sep ':' host.data port.data hh]
  refine ⟨hstrip, ?_⟩
  intro r pre c hban haddr hrun
  have hmem : addressWithoutPort c.remoteAddr ∈ r.banList := by
    rw [haddr, hstrip]
    exact hban
  refine ⟨(addressInBanList_iff r _).mpr hmem, ?_⟩
  rw [ListenAndServe_step r pre _ [] hrun, acceptLoop_nil, acceptIteration_conn, hrun, if_pos hmem]

/-- Witness of C12: the remote address `10.0.0.5:51000` and the ban list that
holds `10.0.0.5`. -/
theorem port_stripping_witness :
    addressWithoutPort ("10.0.0.5" ++ ":" ++ "51000") = "10.0.0.5" ∧
      banningServer.addressInBanList (addressWithoutPort bannedConn.remoteAddr) = true ∧
      banningServer.ListenAndServe none ([] ++ [AcceptOutcome.conn bannedConn]) =
        { result := none
          trace := (banningServer.ListenAndServe none []).trace ++
            [ServerAction.accept (AcceptOutcome.conn bannedConn),
             ServerAction.closeConn bannedConn] } :=
  ⟨(@port_stripping (List String) "10.0.0.5" "51000" (by decide)).1,
   (@port_stripping (List String) "10.0.0.5" "51000" (by decide)).2 banningServer []
     bannedConn (by decide) (by decide) (by decide)⟩

/-- C13 (SetBanList replaces the ban list).  After `SetBanList(l)` the ban list
is `l`: `addressInBanList(a)` is true exactly for the elements of `l`, whatever
the list was before, and host, port, password and command handler are
unchanged. -/
theorem setBanList_replaces (r : RCON W) (l : List String) :
    (∀ a : String, (r.SetBanList l).addressInBanList a = true ↔ a ∈ l) ∧
      (r.SetBanList l).banList = l ∧
      (r.SetBanList l).host = r.host ∧
      (r.SetBanList l).port = r.port ∧
      (r.SetBanList l).password = r.password ∧
      (r.SetBanList l).commandHandler = r.commandHandler :=
  ⟨fun a => addressInBanList_iff (r.SetBanList l) a, rfl, rfl, rfl, rfl, rfl⟩

/-- C14 (result of ListenAndServe).  `ListenAndServe` returns a non-nil error
exactly when `net.Listen` fails; it then returns that error after the listen
call alone, without any `Accept`.  When the listen call succeeds and the first
failing `Accept` comes after any number of accepted connections, it returns
nil right there, after closing the listener, and reads no further `Accept`
result; as long as no `Accept` fails it does not return. -/
theorem listenAndServe_result (r : RCON W) (listenErr : Option String)
    (accepts : List AcceptOutcome) :
    ((∃ e, (r.ListenAndServe listenErr accepts).result = some (some e)) ↔
        listenErr ≠ none) ∧
      (∀ e, listenErr = some e →
        r.ListenAndServe listenErr accepts =
          { result := some (some e)
            trace := [ServerAction.listen (r.host ++ ":" ++ toString r.port)] }) ∧
      (listenErr = none →
        ∀ pre rest : List AcceptOutcome, accepts = pre ++ AcceptOutcome.error :: rest →
          (∀ o ∈ pre, o ≠ AcceptOutcome.error) →
          r.ListenAndServe listenErr accepts =
            { result := some none
              trace := (r.ListenAndServe none pre).trace ++
                [ServerAction.accept AcceptOutcome.error, ServerAction.closeListener] }) ∧
      (listenErr = none → (∀ o ∈ accepts, o ≠ AcceptOutcome.error) →
        (r.ListenAndServe listenErr accepts).result = none) := by
  refine ⟨?_, ?_, ?_, ?_⟩
  · cases listenErr with
    | some e => exact ⟨fun _ => by simp, fun _ => ⟨e, rfl⟩⟩
    | none =>
      constructor
      · rintro ⟨e, he⟩
        rcases acceptLoop_result r
          { result := none
            trace := [ServerAction.listen (r.host ++ ":" ++ toString r.port)] }
          accepts rfl with h | h
        · rw [ListenAndServe_bound, h] at he
          exact absurd he (by simp)
        · rw [ListenAndServe_bound, h] at he
          exact absurd he (by simp)
      · intro h
        exact absurd rfl h
  · rintro e rfl
    rfl
  · rintro rfl pre rest rfl hpre
    have hrun : (r.ListenAndServe none pre).result = none :=
      acceptLoop_running r _ pre rfl hpre
    rw [ListenAndServe_step r pre _ rest hrun, acceptIteration_error]
    exact acceptLoop_of_returned r _ rest rfl
  · rintro rfl hall
    exact acceptLoop_running r _ accepts rfl hall

/-- Witness of C14: a failed bind, and a successful bind followed by one
accepted connection and a failing `Accept`. -/
theorem listenAndServe_result_witness :
    exampleServer.ListenAndServe (some "address already in use")
          [AcceptOutcome.conn exampleConn] =
        { result := some (some "address already in use")
          trace := [ServerAction.listen (exampleServer.host ++ ":" ++
            toString exampleServer.port)] } ∧
      exampleServer.ListenAndServe none
          ([AcceptOutcome.conn exampleConn] ++ AcceptOutcome.error ::
            [AcceptOutcome.conn bannedConn]) =
        { result := some none
          trace := (exampleServer.ListenAndServe none [AcceptOutcome.conn exampleConn]).trace ++
            [ServerAction.accept AcceptOutcome.error, ServerAction.closeListener] } :=
  ⟨(listenAndServe_result exampleServer (some "address already in use")
      [AcceptOutcome.conn exampleConn]).2.1 "address already in use" rfl,
   (listenAndServe_result exampleServer none
      ([AcceptOutcome.conn exampleConn] ++ AcceptOutcome.error ::
        [AcceptOutcome.conn bannedConn])).2.2.1 rfl
      [AcceptOutcome.conn exampleConn] [AcceptOutcome.conn bannedConn] rfl (by decide)⟩

/-- The claim C19 as stated fails: the remote address `[fe80::1]:51000` is not
reduced to `[` but to `[fe80`. -/
theorem bracketed_address_not_always_bracket :
    addressWithoutPort ("[" ++ "fe80::1" ++ "]:" ++ "51000") = "[fe80" ∧
      ¬ ∀ h p : String, addressWithoutPort ("[" ++ h ++ "]:" ++ p) = "[" := by
  refine ⟨by decide, fun hall => ?_⟩
  have h1 := hall "fe80::1" "51000"
  revert h1
  decide

/-- C19, amended (what `addressWithoutPort` keeps).  For every address text,
`addressWithoutPort` returns the part before its first `:` (all of it when it
has none), which holds no `:`.  So it never equals a ban-list entry that holds
a `:`, and dropping such entries from the ban list changes no ban decision.  A
remote address of the form `[h]:p` whose `h` holds a `:` is reduced to `[`
followed by the part of `h` before its first `:`, hence to `[` when `h` begins
with `:`. -/
theorem addressWithoutPort_keeps_first_piece (a : String) :
    addressWithoutPort a = String.mk (a.data.takeWhile (fun c => c != ':')) ∧
      (∃ rest, a.data = (addressWithoutPort a).data ++ rest ∧
        (rest = [] ∨ ∃ rest', rest = ':' :: rest')) ∧
      ':' ∉ (addressWithoutPort a).data ∧
      (∀ e : String, ':' ∈ e.data → addressWithoutPort a ≠ e) ∧
      (∀ r : RCON W,
        r.addressInBanList (addressWithoutPort a) =
          (r.SetBanList (r.banList.filter (fun e => decide (':' ∉ e.data)))).addressInBanList
            (addressWithoutPort a)) ∧
      (∀ h p : String, a = "[" ++ h ++ "]:" ++ p → ':' ∈ h.data →
        addressWithoutPort a = "[" ++ String.mk (h.data.takeWhile (fun c => c != ':'))) ∧
      (∀ h p : String, a = "[" ++ h ++ "]:" ++ p → (∃ t, h.data = ':' :: t) →
        addressWithoutPort a = "[") := by
  have hnot : ':' ∉ (addressWithoutPort a).data := by
    rw [addressWithoutPort_eq]
    exact not_mem_takeWhile_ne ':' a.data
  have hbr : ∀ h p : String, a = "[" ++ h ++ "]:" ++ p → ':' ∈ h.data →
      addressWithoutPort a = "[" ++ String.mk (h.data.takeWhile (fun c => c != ':')) := by
    intro h p ha hh
    rw [addressWithoutPort_eq, ha]
    apply String.ext
    have hdata : ("[" ++ h ++ "]:" ++ p).data = '[' :: (h.data ++ (']' :: ':' :: p.data)) := by
      simp [String.data_append]
    have hcons : List.takeWhile (fun c => c != ':') ('[' :: (h.data ++ (']' :: ':' :: p.data)))
        = '[' :: List.takeWhile (fun c => c != ':') h.data := by
      rw [List.takeWhile_cons, takeWhile_ne_append_of_mem ':' h.data _ hh]
      rfl
    rw [hdata, hcons]
    simp [String.data_append]
  refine ⟨addressWithoutPort_eq a, ?_, hnot, ?_, ?_, hbr, ?_⟩
  · obtain ⟨rest, h1, h2⟩ := takeWhile_ne_split ':' a.data
    refine ⟨rest, ?_, h2⟩
    rw [addressWithoutPort_eq]
    exact h1
  · intro e he heq
    rw [heq] at hnot
    exact hnot he
  · intro r
    rw [Bool.eq_iff_iff, addressInBanList_iff, addressInBanList_iff]
    simp only [RCON.SetBanList, List.mem_filter, decide_eq_true_eq]
    exact ⟨fun hm => ⟨hm, hnot⟩, fun hm => hm.1⟩
  · rintro h p ha ⟨t, ht⟩
    rw [hbr h p ha (by rw [ht]; simp), ht]
    rfl

/-- Witness of C19: the loopback address `[::1]:8080`, and a ban list holding
the entry `::1`. -/
theorem addressWithoutPort_keeps_first_piece_witness :
    addressWithoutPort "[::1]:8080" ≠ "::1" ∧ addressWithoutPort "[::1]:8080" = "[" :=
  ⟨(@addressWithoutPort_keeps_first_piece (List String) "[::1]:8080").2.2.2.1 "::1"
      (by decide),
   (@addressWithoutPort_keeps_first_piece (List String) "[::1]:8080").2.2.2.2.2.2
      "::1" "8080" (by decide) ⟨[':', '1'], by decide⟩⟩

end Listener

end Rcon
